import Mathlib

/-!
Shallow embedding of the data-source execution and caching pipeline
(`DataWarehouse.ts`, `SimpleDataBridge.ts`, `UnifiedDataExecutor.ts`,
`DataItemFetcher.ts`) of the ThingsPanel frontend, together with proofs
about the behaviour of the embedded operations.

Modelling conventions:
* JavaScript runtime values are modelled by the inductive type `JsValue`.
  Numbers are modelled as integers (`Int`); every numeric value the claims
  touch (timestamps, counters, sizes) is integral, so double rounding never
  matters for the statements proved here.
* JavaScript `Map`s and plain objects are modelled as insertion-ordered
  association lists (`aget` / `aset` / `adel` mirror `get` / `set` /
  `delete`; `aset` keeps the original position of an updated key exactly as
  a JS `Map` does).
* Wall-clock reads (`Date.now()`) are passed in explicitly as a `now : Nat`
  argument; one call of a method uses a single instant, matching the source
  which reads the clock once per operation (up to sub-millisecond drift).
* Logging, `window.*` debug mirrors and the performance-metrics counters are
  omitted: they are write-only telemetry that no claim observes.
-/

set_option maxHeartbeats 1000000

/-- Model of a JavaScript runtime value. -/
inductive JsValue where
  | null
  | jsUndefined
  | bool (b : Bool)
  | num (n : Int)
  | str (s : String)
  | arr (elems : List JsValue)
  | obj (fields : List (String × JsValue))
deriving Repr

/-- JavaScript truthiness of a value (`if (v)`).  Arrays and objects are
always truthy; `0`, `""`, `null`, `undefined`, `false` are falsy. -/
def truthy : JsValue → Bool
  | .null => false
  | .jsUndefined => false
  | .bool b => b
  | .num n => n != 0
  | .str s => s != ""
  | .arr _ => true
  | .obj _ => true

/-- Property access `v[k]` yielding `undefined` for missing keys and
non-object receivers (the sources only access properties behind truthiness
guards, so the `null`/`undefined` TypeError case is unreachable there). -/
def jsGet (v : JsValue) (k : String) : JsValue :=
  match v with
  | .obj fields =>
    match fields.lookup k with
    | some w => w
    | none => .jsUndefined
  | _ => .jsUndefined

/-- `aget l k` models `Map.prototype.get` on an insertion-ordered
association list. -/
def aget {α : Type} : List (String × α) → String → Option α
  | [], _ => none
  | (k, v) :: rest, key => if k = key then some v else aget rest key

/-- `aset l k v` models `Map.prototype.set`: an existing key keeps its
position, a new key is appended. -/
def aset {α : Type} : List (String × α) → String → α → List (String × α)
  | [], key, v => [(key, v)]
  | (k, w) :: rest, key, v =>
    if k = key then (k, v) :: rest else (k, w) :: aset rest key v

/-- `adel l k` models `Map.prototype.delete`. -/
def adel {α : Type} : List (String × α) → String → List (String × α)
  | [], _ => []
  | (k, w) :: rest, key => if k = key then rest else (k, w) :: adel rest key

/-- Escape one character for a JSON string literal (enough for the
characters appearing in the development; mirrors `JSON.stringify`). -/
def jsonEscapeChar (c : Char) : String :=
  if c = '"' then "\\\""
  else if c = '\\' then "\\\\"
  else if c = '\n' then "\\n"
  else if c = '\t' then "\\t"
  else if c = '\r' then "\\r"
  else String.singleton c

/-- JSON string literal for `s`. -/
def jsonQuote (s : String) : String :=
  "\"" ++ String.join (s.data.map jsonEscapeChar) ++ "\""

mutual
/-- Model of `JSON.stringify`.  `none` models the `undefined` result (for a
top-level `undefined`), which makes the callers in `DataWarehouse.ts` take
their catch/fallback branches. -/
def jsonStringify : JsValue → Option String
  | .null => some "null"
  | .jsUndefined => none
  | .bool b => some (cond b "true" "false")
  | .num n => some (toString n)
  | .str s => some (jsonQuote s)
  | .arr elems => some ("[" ++ String.intercalate "," (jsonArrElems elems) ++ "]")
  | .obj fields => some ("\x7b" ++ String.intercalate "," (jsonObjFields fields) ++ "\x7d")

/-- Array elements of `JSON.stringify` (`undefined` elements print as
`null`). -/
def jsonArrElems : List JsValue → List String
  | [] => []
  | v :: rest =>
    (match jsonStringify v with
     | some s => s
     | none => "null") :: jsonArrElems rest

/-- Object fields of `JSON.stringify` (`undefined`-valued fields are
omitted). -/
def jsonObjFields : List (String × JsValue) → List String
  | [] => []
  | (k, v) :: rest =>
    match jsonStringify v with
    | some s => (jsonQuote k ++ ":" ++ s) :: jsonObjFields rest
    | none => jsonObjFields rest
end

/-- Wrap an integer to the signed 32-bit range, modelling JavaScript's
`ToInt32` coercion (`x | 0`, `x & x`, shift operands). -/
def toInt32 (x : Int) : Int :=
  (x + 2147483648) % 4294967296 - 2147483648

/-- One step of the string hash loop shared by
`DataWarehouse.calculateDataHash` and `DataItemFetcher.simpleHash`:
`hash = ((hash << 5) - hash) + charCode; hash = hash & hash`. -/
def hashStep (h : Int) (c : Char) : Int :=
  toInt32 (toInt32 (h * 32) - h + c.toNat)

/-- Digit character for `Number.prototype.toString(36)`. -/
def base36Char (d : Nat) : Char :=
  if d < 10 then Char.ofNat (48 + d) else Char.ofNat (87 + d)

/-- Accumulate base-36 digits (most significant first); the first argument
is recursion fuel, always passed `≥` the number so it never runs out. -/
def natToBase36Core : Nat → Nat → List Char → List Char
  | _, 0, acc => acc
  | 0, _ + 1, acc => acc
  | fuel + 1, n + 1, acc =>
    natToBase36Core fuel ((n + 1) / 36) (base36Char ((n + 1) % 36) :: acc)

/-- `n.toString(36)` for a natural number. -/
def natToBase36 (n : Nat) : String :=
  if n = 0 then "0" else String.mk (natToBase36Core n n [])

/-- Decimal digit value of a character, if any. -/
def digitVal (c : Char) : Option Nat :=
  if 48 ≤ c.toNat ∧ c.toNat ≤ 57 then some (c.toNat - 48) else none

/-- Consume leading decimal digits. -/
def takeDigits : List Char → Nat → Nat
  | [], acc => acc
  | c :: cs, acc =>
    match digitVal c with
    | some d => takeDigits cs (10 * acc + d)
    | none => acc

/-- Leading digit run, `none` when the first character is not a digit. -/
def parseDigitRun : List Char → Option Nat
  | [] => none
  | c :: cs =>
    match digitVal c with
    | some d => some (takeDigits cs d)
    | none => none

/-- ASCII whitespace (the whitespace appearing in the modelled strings). -/
def isWsChar (c : Char) : Bool :=
  c = ' ' || c = '\t' || c = '\n' || c = '\r'

/-- `String.prototype.trim` over the modelled character set. -/
def jsTrim (s : String) : String :=
  String.mk (((s.data.dropWhile isWsChar).reverse.dropWhile isWsChar).reverse)

/-- Split worker for `String.prototype.split(sep)` with a one-character
separator. -/
def splitCharsAux (sep : Char) : List Char → List Char → List String
  | [], acc => [String.mk acc.reverse]
  | x :: xs, acc =>
    if x = sep then String.mk acc.reverse :: splitCharsAux sep xs []
    else splitCharsAux sep xs (x :: acc)

/-- `s.split(sep)` for a one-character separator. -/
def jsSplitOnChar (s : String) (sep : Char) : List String :=
  splitCharsAux sep s.data []

/-- Whether the first list starts with the second. -/
def charsStartWith : List Char → List Char → Bool
  | _, [] => true
  | [], _ :: _ => false
  | c :: cs, p :: ps => c = p && charsStartWith cs ps

/-- Index of the first occurrence of `pat` at or after the current
position. -/
def findSubAux (pat : List Char) : List Char → Nat → Option Nat
  | [], i => if pat.isEmpty then some i else none
  | c :: rest, i =>
    if charsStartWith (c :: rest) pat then some i else findSubAux pat rest (i + 1)

/-- `String.prototype.endsWith`. -/
def strEndsWith (s suffixStr : String) : Bool :=
  charsStartWith s.data.reverse suffixStr.data.reverse

/-- Lexicographic code-unit comparison, the default `Array.sort()` string
order. -/
def charsLt : List Char → List Char → Bool
  | [], [] => false
  | [], _ :: _ => true
  | _ :: _, [] => false
  | a :: as, b :: bs => if a < b then true else if b < a then false else charsLt as bs

/-- String order used by the dedup-key fragment sort. -/
def strLt (a b : String) : Bool := charsLt a.data b.data

/-- Model of `parseInt(s)` (radix 10): skip leading whitespace, optional
sign, leading digit run; `none` models `NaN`. -/
def jsParseInt (s : String) : Option Int :=
  let cs := s.data.dropWhile isWsChar
  match cs with
  | '-' :: rest => (parseDigitRun rest).map (fun n => -(n : Int))
  | '+' :: rest => (parseDigitRun rest).map (fun n => (n : Int))
  | _ => (parseDigitRun cs).map (fun n => (n : Int))

/-- `parseInt(s) || 0`: `NaN` (and an explicit 0) collapse to 0. -/
def jsParseIntOrZero (s : String) : Int :=
  match jsParseInt s with
  | some n => n
  | none => 0

/-! ## Data Warehouse (`DataWarehouse.ts`, class `EnhancedDataWarehouse`) -/

/-- The fields of `DataWarehouseConfig` the modelled operations read
(`cleanupInterval` / `enablePerformanceMonitoring` only drive timers). -/
structure DataWarehouseConfig where
  defaultCacheExpiry : Nat := 300000
  maxMemoryUsage : Nat := 100
  maxStorageItems : Nat := 1000
deriving Repr

/-- `DataStorageItem`, with the nested `source` record flattened into the
three fields it carries.  The `executionId` debug token is a random string
in the source and observed by nothing; it is omitted to keep the model
deterministic. -/
structure DataStorageItem where
  data : JsValue
  timestamp : Nat
  expiresAt : Option Nat := none
  sourceId : String
  sourceType : String
  componentId : String
  size : Nat
  accessCount : Nat
  lastAccessed : Nat
  dataVersion : Option String := none
deriving Repr

/-- `ComponentDataStorage`. -/
structure ComponentDataStorage where
  componentId : String
  dataSources : List (String × DataStorageItem) := []
  mergedData : Option DataStorageItem := none
  createdAt : Nat
  updatedAt : Nat
deriving Repr

/-- The mutable state of an `EnhancedDataWarehouse` instance (the
`parameterStorage` map is reserved for a later phase and touched by no
modelled operation). -/
structure WarehouseState where
  componentStorage : List (String × ComponentDataStorage) := []
  componentChangeNotifiers : List (String × Nat) := []
  componentLatestVersions : List (String × String) := []
  config : DataWarehouseConfig := {}
deriving Repr

/-- `isExpired`: `item.expiresAt !== undefined && Date.now() > item.expiresAt`. -/
def isExpired (item : DataStorageItem) (now : Nat) : Bool :=
  match item.expiresAt with
  | none => false
  | some e => now > e

/-- `calculateDataSize`: `JSON.stringify(data).length * 2`, defaulting to
1024 when stringification fails. -/
def calculateDataSize (data : JsValue) : Nat :=
  match jsonStringify data with
  | some s => s.length * 2
  | none => 1024

/-- `calculateDataHash`: the 32-bit string hash of the JSON serialization,
in base 36.  When stringification fails the source falls back to a random
token; the model returns a fixed placeholder (no claim reaches that branch). -/
def calculateDataHash (data : JsValue) : String :=
  match jsonStringify data with
  | some s => natToBase36 (s.data.foldl hashStep 0).natAbs
  | none => "fallback"

/-- `generateDataVersion`: `componentId-timestamp-hash`. -/
def generateDataVersion (componentId : String) (data : JsValue) (now : Nat) : String :=
  componentId ++ "-" ++ toString now ++ "-" ++ calculateDataHash data

/-- `extractTimestampFromVersion`: split on `-` and `parseInt` the second
part (`|| 0`). -/
def extractTimestampFromVersion (version : String) : Int :=
  let parts := jsSplitOnChar version '-' 
  if parts.length ≥ 2 then jsParseIntOrZero (parts.getD 1 "") else 0

/-- `shouldAcceptData`: accept on first store, otherwise accept exactly when
the incoming version's timestamp is `≥` the timestamp of the component's
recorded latest version. -/
def shouldAcceptData (st : WarehouseState) (componentId : String) (dataVersion : String) : Bool :=
  match aget st.componentLatestVersions componentId with
  | none => true
  | some latestVersion =>
    extractTimestampFromVersion dataVersion ≥ extractTimestampFromVersion latestVersion

/-- `updateLatestDataVersion`. -/
def updateLatestDataVersion (st : WarehouseState) (componentId dataVersion : String) : WarehouseState :=
  { st with componentLatestVersions := aset st.componentLatestVersions componentId dataVersion }

/-- Total bytes of stored items (`getCurrentMemoryUsage` keeps this sum and
divides by 2^20 to report MB; the model keeps exact bytes and scales the
comparisons instead, which is the same rational comparison). -/
def getCurrentMemoryBytes (st : WarehouseState) : Nat :=
  (st.componentStorage.map (fun p =>
    (p.2.dataSources.map (fun q => q.2.size)).sum +
    (match p.2.mergedData with
     | some m => m.size
     | none => 0))).sum

/-- `getTotalItemCount`. -/
def getTotalItemCount (st : WarehouseState) : Nat :=
  (st.componentStorage.map (fun p =>
    p.2.dataSources.length +
    (match p.2.mergedData with
     | some _ => 1
     | none => 0))).sum

/-- `shouldRejectStorage`: memory-cap / item-cap check.  The byte form
`current + new > max * 2^20` is the exact form of the source's
`currentMB + newMB > maxMemoryUsage`. -/
def shouldRejectStorage (st : WarehouseState) (dataSize : Nat) : Bool :=
  (getCurrentMemoryBytes st + dataSize > st.config.maxMemoryUsage * 1048576) ||
  (getTotalItemCount st ≥ st.config.maxStorageItems)

/-- `storeComponentData`.  Steps, as in the source: version gate
(`shouldAcceptData`), memory gate (`shouldRejectStorage`), get-or-create the
component storage, upsert the item, clear the merged cache, record the
latest version, bump the component-scoped change notifier. -/
def storeComponentData (st : WarehouseState) (componentId sourceId : String)
    (data : JsValue) (sourceType : String) (customExpiry : Option Nat) (now : Nat) :
    WarehouseState :=
  let dataVersion := generateDataVersion componentId data now
  if ¬ shouldAcceptData st componentId dataVersion then st
  else
    let dataSize := calculateDataSize data
    if shouldRejectStorage st dataSize then st
    else
      let componentStorage :=
        match aget st.componentStorage componentId with
        | some s => s
        | none =>
          { componentId := componentId, dataSources := [], createdAt := now, updatedAt := now }
      -- `customExpiry ? now + customExpiry : now + defaultCacheExpiry`
      -- (an explicit 0 is falsy, hence also takes the default)
      let expiry :=
        match customExpiry with
        | some c => if c = 0 then now + st.config.defaultCacheExpiry else now + c
        | none => now + st.config.defaultCacheExpiry
      let storageItem : DataStorageItem :=
        { data := data, timestamp := now, expiresAt := some expiry,
          sourceId := sourceId, sourceType := sourceType, componentId := componentId,
          size := dataSize, accessCount := 0, lastAccessed := now,
          dataVersion := some dataVersion }
      let componentStorage :=
        { componentStorage with
            dataSources := aset componentStorage.dataSources sourceId storageItem,
            updatedAt := now,
            mergedData := none }
      let st := { st with componentStorage := aset st.componentStorage componentId componentStorage }
      let st := updateLatestDataVersion st componentId dataVersion
      let oldNotifier := (aget st.componentChangeNotifiers componentId).getD 0
      { st with
          componentChangeNotifiers := aset st.componentChangeNotifiers componentId (oldNotifier + 1) }

/-- The rebuild loop of `getComponentData`: walk the data sources in
insertion order, bump access statistics of live items, delete expired ones;
returns the surviving entries and the collected `componentData` record. -/
def walkSources (now : Nat) :
    List (String × DataStorageItem) →
    List (String × DataStorageItem) × List (String × JsValue)
  | [] => ([], [])
  | (sid, item) :: rest =>
    let (keep, collected) := walkSources now rest
    if ¬ isExpired item now then
      let item := { item with accessCount := item.accessCount + 1, lastAccessed := now }
      ((sid, item) :: keep, (sid, item.data) :: collected)
    else
      (keep, collected)

/-- The `complete`-unwrapping step at the end of `getComponentData`:
`if ('complete' in componentData && componentData.complete)`, then
`if (completeData.deviceData && completeData.deviceData.data)`. -/
def unwrapComplete (componentData : List (String × JsValue)) : JsValue :=
  match aget componentData "complete" with
  | some completeData =>
    if truthy completeData then
      let deviceData := jsGet completeData "deviceData"
      if truthy deviceData && truthy (jsGet deviceData "data") then
        jsGet deviceData "data"
      else completeData
    else .obj componentData
  | none => .obj componentData

/-- The cached-merged-view test of `getComponentData`:
`componentStorage.mergedData && !isExpired(...)`. -/
def mergedCacheHit (storage : ComponentDataStorage) (now : Nat) : Option DataStorageItem :=
  match storage.mergedData with
  | some merged => if ¬ isExpired merged now then some merged else none
  | none => none

/-- The rebuild-and-cache path of `getComponentData` (entered when no
fresh merged cache exists): walk the sources, and unless nothing valid
remains, unwrap a `complete` source and cache the final value as the new
merged view. -/
def rebuildComponentData (st : WarehouseState) (componentId : String)
    (storage : ComponentDataStorage) (now : Nat) : WarehouseState × Option JsValue :=
  let (keep, componentData) := walkSources now storage.dataSources
  if componentData.isEmpty then
    let storage := { storage with dataSources := keep }
    ({ st with componentStorage := aset st.componentStorage componentId storage }, none)
  else
    let finalData := unwrapComplete componentData
    let mergedItem : DataStorageItem :=
      { data := finalData, timestamp := now,
        expiresAt := some (now + st.config.defaultCacheExpiry),
        sourceId := "*merged*", sourceType := "merged", componentId := componentId,
        size := calculateDataSize finalData, accessCount := 1, lastAccessed := now }
    let storage := { storage with dataSources := keep, mergedData := some mergedItem }
    ({ st with componentStorage := aset st.componentStorage componentId storage },
     some finalData)

/-- `getComponentData`.  Returns the new state (access statistics, expired
deletions, merged-cache write, notifier creation) and the returned value
(`none` models the `null` return). -/
def getComponentData (st : WarehouseState) (componentId : String) (now : Nat) :
    WarehouseState × Option JsValue :=
  -- get-or-create the component-scoped notifier and read it
  let st :=
    match aget st.componentChangeNotifiers componentId with
    | some _ => st
    | none =>
      { st with componentChangeNotifiers := aset st.componentChangeNotifiers componentId 0 }
  match aget st.componentStorage componentId with
  | none => (st, none)
  | some storage =>
    match mergedCacheHit storage now with
    | some merged =>
      let merged := { merged with accessCount := merged.accessCount + 1, lastAccessed := now }
      let storage := { storage with mergedData := some merged }
      ({ st with componentStorage := aset st.componentStorage componentId storage },
       some merged.data)
    | none => rebuildComponentData st componentId storage now

/-- `clearDataSourceCache`: delete one source entry; when something was
actually removed, also drop the merged cache and bump the notifier (only if
one already exists — this method does not create notifiers). -/
def clearDataSourceCache (st : WarehouseState) (componentId sourceId : String) :
    WarehouseState :=
  match aget st.componentStorage componentId with
  | none => st
  | some storage =>
    match aget storage.dataSources sourceId with
    | none => st
    | some _ =>
      let storage :=
        { storage with dataSources := adel storage.dataSources sourceId, mergedData := none }
      let st := { st with componentStorage := aset st.componentStorage componentId storage }
      match aget st.componentChangeNotifiers componentId with
      | some n =>
        { st with componentChangeNotifiers := aset st.componentChangeNotifiers componentId (n + 1) }
      | none => st

/-- Phase-1 treatment of one component storage in `performCleanup`: drop
expired sources, drop an expired merged cache, and signal deletion of the
whole storage (`none`) when no valid source data and no merged cache
remain. -/
def cleanupStorage (storage : ComponentDataStorage) (now : Nat) :
    Option ComponentDataStorage :=
  let survivors := storage.dataSources.filter (fun p => ¬ isExpired p.2 now)
  let merged :=
    match storage.mergedData with
    | some m => if isExpired m now then none else some m
    | none => none
  if survivors.isEmpty ∧ merged.isNone then none
  else some { storage with dataSources := survivors, mergedData := merged }

/-- Phase 1 of `performCleanup`: expired-data cleanup over every component. -/
def cleanupPhase1 (st : WarehouseState) (now : Nat) : WarehouseState :=
  { st with componentStorage :=
      st.componentStorage.filterMap (fun p => (cleanupStorage p.2 now).map (fun s => (p.1, s))) }

/-- The memory-pressure trigger of `performCleanup`:
`getCurrentMemoryUsage() > maxMemoryUsage * 0.8`, kept in the exact scaled
byte form `5 * bytes > 4 * maxMB * 2^20`. -/
def memoryPressure (st : WarehouseState) : Bool :=
  5 * getCurrentMemoryBytes st > 4 * st.config.maxMemoryUsage * 1048576

/-- One row of the candidate table built by `getLeastAccessedItems`. -/
structure ItemRef where
  componentId : String
  sourceId : String
  accessCount : Nat
  lastAccessed : Nat
deriving Repr

/-- Collect every `(componentId, sourceId, accessCount, lastAccessed)` row
in map-iteration (insertion) order. -/
def collectItems (st : WarehouseState) : List ItemRef :=
  st.componentStorage.flatMap (fun p =>
    p.2.dataSources.map (fun q =>
      { componentId := p.1, sourceId := q.1,
        accessCount := q.2.accessCount, lastAccessed := q.2.lastAccessed }))

/-- The strict part of the sort comparator of `getLeastAccessedItems`:
ascending `accessCount`, ties broken by ascending `lastAccessed`. -/
def itemLt (a b : ItemRef) : Bool :=
  decide (a.accessCount < b.accessCount ∨
    (a.accessCount = b.accessCount ∧ a.lastAccessed < b.lastAccessed))

/-- Stable insertion of `x`: placed before the first strictly greater
element, after equals — the placement a stable ascending sort produces. -/
def stableInsert (x : ItemRef) : List ItemRef → List ItemRef
  | [] => [x]
  | y :: ys => if itemLt x y then x :: y :: ys else y :: stableInsert x ys

/-- Stable ascending sort by the composite comparator, modelling
`allItems.sort(...)` (JS `Array.prototype.sort` is stable). -/
def sortItems (l : List ItemRef) : List ItemRef :=
  l.foldl (fun acc x => stableInsert x acc) []

/-- `getLeastAccessedItems`. -/
def getLeastAccessedItems (st : WarehouseState) (count : Nat) : List ItemRef :=
  (sortItems (collectItems st)).take count

/-- `performCleanup`: phase 1 drops expired data and empty components;
phase 2, entered when the 80%-of-budget trigger fires, evicts the (at most)
10 least-accessed source entries via `clearDataSourceCache`. -/
def performCleanup (st : WarehouseState) (now : Nat) : WarehouseState :=
  let st1 := cleanupPhase1 st now
  if memoryPressure st1 then
    (getLeastAccessedItems st1 10).foldl
      (fun s r => clearDataSourceCache s r.componentId r.sourceId) st1
  else st1

/-- Direct read of a stored source entry, for stating properties. -/
def storedEntry (st : WarehouseState) (componentId sourceId : String) :
    Option DataStorageItem :=
  match aget st.componentStorage componentId with
  | some storage => aget storage.dataSources sourceId
  | none => none

/-- The stored data value at a key, for stating properties. -/
def storedData (st : WarehouseState) (componentId sourceId : String) : Option JsValue :=
  (storedEntry st componentId sourceId).map (fun item => item.data)

/-- Whether a `storeComponentData` call passes both gates (version gate and
memory gate) and therefore writes. -/
def storeWriteAccepted (st : WarehouseState) (componentId : String)
    (data : JsValue) (now : Nat) : Bool :=
  shouldAcceptData st componentId (generateDataVersion componentId data now) &&
  ¬ shouldRejectStorage st (calculateDataSize data)

/-! ## Simple data bridge (`SimpleDataBridge.ts`) -/

/-- `SimpleDataSourceConfig` (the per-kind `config` payload is carried
opaquely; the bridge only forwards it to the executor). -/
structure SimpleDataSourceConfig where
  id : String
  type : String
  config : JsValue := .obj []
deriving Repr

/-- `DataResult`. -/
structure DataResult where
  success : Bool
  data : Option JsValue := none
  error : Option String := none
  timestamp : Nat
deriving Repr

/-- `ComponentDataRequirement`. -/
structure ComponentDataRequirement where
  componentId : String
  dataSources : List SimpleDataSourceConfig
deriving Repr

/-- The per-source body of `executeComponent`'s parallel map:
`executeDataSource` either yields data (`Except.ok`, the unified executor
reported success) or throws (`Except.error`, covering both a thrown
exception and a `success=false` executor result, which `executeDataSource`
rethrows).  On success the result is stored in the warehouse; on failure
the slot is set to `null` and nothing is stored. -/
def bridgeStep (exec : SimpleDataSourceConfig → Except String JsValue)
    (componentId : String) (now : Nat)
    (acc : WarehouseState × List (String × JsValue) × List String)
    (ds : SimpleDataSourceConfig) :
    WarehouseState × List (String × JsValue) × List String :=
  match exec ds with
  | .ok v =>
    (storeComponentData acc.1 componentId ds.id v ds.type none now,
     aset acc.2.1 ds.id v, acc.2.2 ++ [ds.id])
  | .error _ =>
    (acc.1, aset acc.2.1 ds.id .null, acc.2.2 ++ [ds.id])

/-- The cache-miss path of `executeComponent`: run every declared source
(the source runs them in parallel and awaits all of them with
`Promise.allSettled`; with one clock instant per call and per-source slots
the sequential fold computes the same final map and warehouse contents),
then report overall success.  The third component lists the sources whose
executor was actually invoked. -/
def executeAllSources (exec : SimpleDataSourceConfig → Except String JsValue)
    (wh : WarehouseState) (req : ComponentDataRequirement) (now : Nat) :
    WarehouseState × DataResult × List String :=
  let r := req.dataSources.foldl (bridgeStep exec req.componentId now) (wh, [], [])
  (r.1, { success := true, data := some (.obj r.2.1), timestamp := now }, r.2.2)

/-- `SimpleDataBridge.executeComponent`: cache-first read of the warehouse
(`if (cachedData)` — a truthiness test), else execute all sources.  The
registered data-update callbacks only observe results and are omitted. -/
def executeComponent (exec : SimpleDataSourceConfig → Except String JsValue)
    (wh : WarehouseState) (req : ComponentDataRequirement) (now : Nat) :
    WarehouseState × DataResult × List String :=
  let g := getComponentData wh req.componentId now
  match g.2 with
  | some cachedData =>
    if truthy cachedData then
      (g.1, { success := true, data := some cachedData, timestamp := now }, [])
    else executeAllSources exec g.1 req now
  | none => executeAllSources exec g.1 req now

/-! ## Unified executor (`UnifiedDataExecutor.ts`) -/

/-- `UnifiedDataConfig` (the kind-specific `config` payload is opaque to the
dispatcher). -/
structure UnifiedDataConfig where
  id : String
  type : String
  enabled : Option Bool := none
  config : JsValue := .obj []
deriving Repr

/-- `UnifiedDataResult` (the optional `metadata` block is debug-only
telemetry and omitted). -/
structure UnifiedDataResult where
  success : Bool
  data : Option JsValue := none
  error : Option String := none
  errorCode : Option String := none
  timestamp : Nat
  sourceId : String
deriving Repr

/-- A registered source executor: it may return a result or throw
(`Except.error` carries the exception message). -/
def SourceExecutor : Type :=
  UnifiedDataConfig → Except String UnifiedDataResult

/-- `UnifiedDataExecutor.execute`: disabled-source check, registry lookup by
`config.type` (failure code `UNSUPPORTED_DATA_SOURCE` when absent), then the
executor call with its exceptions converted to an `EXECUTOR_EXCEPTION`
failure result (`error.message || '执行器异常'`). -/
def unifiedExecute (executors : List (String × SourceExecutor))
    (config : UnifiedDataConfig) (now : Nat) : UnifiedDataResult :=
  let enabled : Bool :=
    match config.enabled with
    | some b => b
    | none => true
  if ¬ enabled then
    { success := false, error := some "数据源未启用",
      errorCode := some "DATA_SOURCE_DISABLED", timestamp := now, sourceId := config.id }
  else
    match aget executors config.type with
    | none =>
      { success := false, error := some ("不支持的数据源类型: " ++ config.type),
        errorCode := some "UNSUPPORTED_DATA_SOURCE", timestamp := now, sourceId := config.id }
    | some executor =>
      match executor config with
      | .ok result => result
      | .error msg =>
        { success := false,
          error := some (if msg = "" then "执行器异常" else msg),
          errorCode := some "EXECUTOR_EXCEPTION", timestamp := now, sourceId := config.id }

/-! ## Data item fetcher (`DataItemFetcher.ts`) -/

/-- The declared `dataType` of an HTTP parameter. -/
inductive ParamDataType where
  | string
  | number
  | boolean
  | json
deriving Repr, DecidableEq

/-- `HttpParameter` (fields the modelled code reads). -/
structure HttpParameter where
  key : String
  value : JsValue := .jsUndefined
  enabled : Bool := true
  dataType : ParamDataType := .string
  defaultValue : JsValue := .jsUndefined
  selectedTemplate : Option String := none
  paramType : Option String := none
deriving Repr

/-- The two external visual-editor inputs `resolveParameterValue` consults
for component-property bindings: the store-backed property lookup
(`getComponentPropertyValue`, `undefined` when the component or property is
missing) and the node id the "smart inference" fallback would pick from the
editor store (`selectedNodeId`, else the first available node; `none` when
the store has no nodes). -/
structure EditorEnv where
  getComponentPropertyValue : String → JsValue
  inferredNodeId : Option String := none

mutual
/-- String conversion `String(v)` (enough of the JS semantics for the
values the pipeline produces). -/
def jsToString : JsValue → String
  | .null => "null"
  | .jsUndefined => "undefined"
  | .bool b => cond b "true" "false"
  | .num n => toString n
  | .str s => s
  | .arr elems => String.intercalate "," (jsToStringList elems)
  | .obj _ => "[object Object]"

/-- Element conversions for `String(array)`. -/
def jsToStringList : List JsValue → List String
  | [] => []
  | v :: rest => jsToString v :: jsToStringList rest
end

/-- Numeric conversion with the graceful degradation the spec fixes
(non-convertible inputs become 0). -/
def jsToNumberOrZero : JsValue → Int
  | .num n => n
  | .bool b => cond b 1 0
  | .str s =>
    match jsParseInt (jsTrim s) with
    | some n => n
    | none => 0
  | _ => 0

/-- Modelled from the spec: `convertValue` (imported from
`types/http-config`, whose source is not available) converts a resolved
value to the declared `dataType` (string / number / boolean / json) with a
fixed, total conversion; non-convertible inputs degrade to a
type-appropriate zero value rather than erroring. -/
def convertValue (v : JsValue) (dt : ParamDataType) : JsValue :=
  match dt with
  | .string => .str (jsToString v)
  | .number => .num (jsToNumberOrZero v)
  | .boolean => .bool (truthy v)
  | .json => v

/-- The binding-path emptiness test
`!bindingPath || bindingPath.trim() === ''` (the paths in play are strings
or absent; a truthy non-string would make the source itself throw on
`.trim`). -/
def bindingPathEmpty : JsValue → Bool
  | .str s => jsTrim s = ""
  | v => ¬ truthy v

/-- The component-property-binding block of `resolveParameterValue`
(everything before the emptiness check): possibly infer a binding path from
the editor store, look the live property up, and treat a missing/empty
property value as unresolved (`undefined`). -/
def preResolveValue (env : EditorEnv) (param : HttpParameter) : JsValue :=
  if param.selectedTemplate = some "component-property-binding" then
    let bindingPath : JsValue :=
      if bindingPathEmpty param.value then
        match env.inferredNodeId with
        | some nodeId => .str (nodeId ++ ".customize.deviceId")
        | none => param.value
      else param.value
    match bindingPath with
    | .str s =>
      if s ≠ "" then
        let actualValue := env.getComponentPropertyValue s
        let usable :=
          match actualValue with
          | .jsUndefined => false
          | .null => false
          | .str t => t ≠ ""
          | _ => true
        if usable then actualValue else .jsUndefined
      else param.value
    | _ => param.value
  else param.value

/-- The emptiness test of `resolveParameterValue`:
`null`, `undefined`, `''`, or a whitespace-only string. -/
def isEmptyResolved : JsValue → Bool
  | .null => true
  | .jsUndefined => true
  | .str s => s = "" || jsTrim s = ""
  | _ => false

/-- Whether a `defaultValue` is configured
(`param.defaultValue !== undefined && param.defaultValue !== null`). -/
def defaultConfigured (param : HttpParameter) : Bool :=
  match param.defaultValue with
  | .jsUndefined => false
  | .null => false
  | _ => true

/-- `resolveParameterValue`: binding resolution, empty-value check with
`defaultValue` fallback, `none` as the skip marker (the source returns
`null` to mean "omit this parameter"), and `convertValue` on the result. -/
def resolveParameterValue (env : EditorEnv) (param : HttpParameter) : Option JsValue :=
  let resolvedValue := preResolveValue env param
  if isEmptyResolved resolvedValue then
    if defaultConfigured param then
      some (convertValue param.defaultValue param.dataType)
    else none
  else some (convertValue resolvedValue param.dataType)

/-- `HttpDataItemConfig` (fields the modelled request-building code reads;
the pre/post script hooks run in the external script engine and are
omitted). -/
structure HttpDataItemConfig where
  url : String
  method : String := "GET"
  headers : List (String × String) := []
  body : Option JsValue := none
  timeout : Option Nat := none
  pathParameter : Option HttpParameter := none
  pathParams : List HttpParameter := []
  params : List HttpParameter := []
  parameters : List HttpParameter := []
deriving Repr

/-- Substring test (`String.prototype.includes`). -/
def containsSubstr (s pat : String) : Bool :=
  (findSubAux pat.data s.data 0).isSome

/-- Replace the first occurrence of `pat` (JavaScript
`String.prototype.replace` with a string pattern). -/
def replaceFirst (s pat repl : String) : String :=
  match findSubAux pat.data s.data 0 with
  | some i => String.mk (s.data.take i ++ repl.data ++ s.data.drop (i + pat.data.length))
  | none => s

/-- The parameter filter `p.enabled && p.key` used by every parameter loop. -/
def paramActive (p : HttpParameter) : Bool :=
  p.enabled && p.key ≠ ""

/-- The outgoing request assembled by `executeHttpRequest` (the parts the
parameter-processing code determines: final URL, query map, headers). -/
structure BuiltRequest where
  url : String
  query : List (String × JsValue) := []
  headers : List (String × String) := []
  timeout : Nat := 10000
deriving Repr

/-- Path-parameter processing of `executeHttpRequest`: the new-format
`pathParams` list takes priority; otherwise the legacy single
`pathParameter`; skipped parameters (`null` resolution) leave the URL
untouched. -/
def applyPathParams (env : EditorEnv) (config : HttpDataItemConfig) : String :=
  if !config.pathParams.isEmpty then
    (config.pathParams.filter paramActive).foldl
      (fun finalUrl p =>
        match resolveParameterValue env p with
        | some v =>
          let placeholder := "\x7b" ++ p.key ++ "\x7d"
          if containsSubstr finalUrl placeholder then
            replaceFirst finalUrl placeholder (jsToString v)
          else finalUrl
        | none => finalUrl)
      config.url
  else
    match config.pathParameter with
    | some pathParam =>
      match resolveParameterValue env pathParam with
      | some v =>
        if truthy v && jsTrim (jsToString v) ≠ "" then
          let placeholder :=
            if pathParam.key ≠ "" then "\x7b" ++ pathParam.key ++ "\x7d" else "\x7bid\x7d"
          if containsSubstr config.url placeholder then
            replaceFirst config.url placeholder (jsToString v)
          else config.url
        else config.url
      | none => config.url
    | none => config.url

/-- One step of the unified-parameter loop (`paramType` dispatch on path /
query / header). -/
def unifiedParamStep (env : EditorEnv)
    (acc : List (String × JsValue) × String × List (String × String))
    (p : HttpParameter) :
    List (String × JsValue) × String × List (String × String) :=
  match resolveParameterValue env p with
  | some v =>
    match p.paramType with
    | some "path" =>
      if truthy v && jsTrim (jsToString v) ≠ "" then
        let separator := if strEndsWith acc.2.1 "/" then "" else "/"
        (acc.1, acc.2.1 ++ separator ++ jsToString v, acc.2.2)
      else acc
    | some "query" => (aset acc.1 p.key v, acc.2.1, acc.2.2)
    | some "header" => (acc.1, acc.2.1, aset acc.2.2 p.key (jsToString v))
    | _ => acc
  | none => acc

/-- The request-building portion of `executeHttpRequest`: headers from the
config, path parameters into the URL, then either the `params` query loop
or (legacy fallback) the unified `parameters` loop.  Skipped parameters
appear nowhere in the result. -/
def buildHttpRequest (env : EditorEnv) (config : HttpDataItemConfig) : BuiltRequest :=
  let url1 := applyPathParams env config
  let r :=
    if !config.params.isEmpty then
      ((config.params.filter paramActive).foldl
        (fun queryParams p =>
          match resolveParameterValue env p with
          | some v => aset queryParams p.key v
          | none => queryParams)
        [], url1, config.headers)
    else if !config.parameters.isEmpty then
      (config.parameters.filter paramActive).foldl (unifiedParamStep env) ([], url1, config.headers)
    else ([], url1, config.headers)
  { url := r.2.1, query := r.1, headers := r.2.2,
    timeout :=
      match config.timeout with
      | some t => if t = 0 then 10000 else t
      | none => 10000 }

/-- `simpleHash`. -/
def simpleHash (s : String) : String :=
  if s.length = 0 then "0" else natToBase36 (s.data.foldl hashStep 0).natAbs

/-- Stable insertion for the lexicographic string sort `Array.sort()` uses
on the key fragments. -/
def insertStr (x : String) : List String → List String
  | [] => [x]
  | y :: ys => if strLt x y then x :: y :: ys else y :: insertStr x ys

/-- Lexicographic ascending sort of strings (default `Array.sort()`). -/
def sortStrings (l : List String) : List String :=
  l.foldl (fun acc x => insertStr x acc) []

/-- A `key=value` fragment of the dedup key (template-string interpolation
of the resolution result; the skip marker prints as `null`). -/
def paramFragment (env : EditorEnv) (p : HttpParameter) : String :=
  p.key ++ "=" ++
    (match resolveParameterValue env p with
     | some v => jsToString v
     | none => "null")

/-- `generateRequestKey`: method, URL, sorted enabled path / query / unified
parameter fragments, serialized object body, hashed. -/
def generateRequestKey (env : EditorEnv) (config : HttpDataItemConfig) : String :=
  let keyComponents :=
    [if config.method = "" then "GET" else config.method, config.url] ++
    (if !config.pathParams.isEmpty then
      ["path:" ++ String.intercalate "&"
        (sortStrings ((config.pathParams.filter paramActive).map (paramFragment env)))]
     else []) ++
    (if !config.params.isEmpty then
      ["query:" ++ String.intercalate "&"
        (sortStrings ((config.params.filter paramActive).map (paramFragment env)))]
     else []) ++
    (if !config.parameters.isEmpty then
      ["unified:" ++ String.intercalate "&"
        (sortStrings ((config.parameters.filter paramActive).map (paramFragment env)))]
     else []) ++
    (match config.body with
     | some b =>
       match b with
       | .obj _ =>
         (match jsonStringify b with
          | some s => ["body:" ++ s]
          | none => ["body:undefined"])
       | .arr _ =>
         (match jsonStringify b with
          | some s => ["body:" ++ s]
          | none => ["body:undefined"])
       | _ => []
     | none => [])
  "http_" ++ simpleHash (String.intercalate "|" keyComponents)

/-- One live row of the request-dedup table `requestCache`, together with
the instant its scheduled `setTimeout` deletion fires (creation time +
`REQUEST_CACHE_TTL`). -/
structure DedupEntry where
  key : String
  reqId : Nat
  deleteAt : Nat
deriving Repr

/-- The dedup table plus bookkeeping observables: a fresh id per underlying
request and the number of underlying HTTP requests issued. -/
structure DedupState where
  entries : List DedupEntry := []
  nextReqId : Nat := 0
  issued : Nat := 0
deriving Repr

/-- `REQUEST_CACHE_TTL` (milliseconds). -/
def REQUEST_CACHE_TTL : Nat := 200

/-- Fire every deletion timer due by `now` (the event loop runs scheduled
`requestCache.delete` callbacks before later calls execute). -/
def purgeDue (st : DedupState) (now : Nat) : DedupState :=
  { st with entries := st.entries.filter (fun e => ¬ e.deleteAt ≤ now) }

/-- First entry with the given key. -/
def findEntry : List DedupEntry → String → Option DedupEntry
  | [], _ => none
  | e :: rest, key => if e.key = key then some e else findEntry rest key

/-- The dedup logic of `fetchHttpData` for one call arriving at `now` with
a given request key: serve a pending identical request from the table,
otherwise issue a new underlying request and schedule the entry's removal
at `now + REQUEST_CACHE_TTL`.  Returns the state, the id of the underlying
request whose result the caller receives, and whether a new underlying
request was issued. -/
def fetchHttpDataStep (st : DedupState) (key : String) (now : Nat) :
    DedupState × Nat × Bool :=
  let st := purgeDue st now
  match findEntry st.entries key with
  | some e => (st, e.reqId, false)
  | none =>
    let rid := st.nextReqId
    ({ entries := st.entries ++ [{ key := key, reqId := rid, deleteAt := now + REQUEST_CACHE_TTL }],
       nextReqId := rid + 1, issued := st.issued + 1 }, rid, true)

/-- `fetchHttpData`: dedup keyed by `generateRequestKey`. -/
def fetchHttpData (env : EditorEnv) (st : DedupState) (config : HttpDataItemConfig)
    (now : Nat) : DedupState × Nat × Bool :=
  fetchHttpDataStep st (generateRequestKey env config) now

/-! ## Predicates and concrete instances used in the statements -/

/-- The component's recorded latest version exists and its timestamp is at
least `ts` (the invariant `storeComponentData` maintains relative to every
stored entry's version). -/
def latestAtLeast (st : WarehouseState) (componentId : String) (ts : Int) : Bool :=
  match aget st.componentLatestVersions componentId with
  | some latestVersion => extractTimestampFromVersion latestVersion ≥ ts
  | none => false

/-- Every cached merged view holds a truthy value — an invariant of all
warehouse operations (`getComponentData` only caches truthy final values,
`storeComponentData` only clears the cache). -/
def mergedTruthyInv (st : WarehouseState) : Bool :=
  st.componentStorage.all (fun p =>
    match p.2.mergedData with
    | some m => truthy m.data
    | none => true)

/-- The composite eviction preorder: ascending `accessCount`, then
ascending `lastAccessed`. -/
def itemLeP (a b : ItemRef) : Prop :=
  a.accessCount < b.accessCount ∨
    (a.accessCount = b.accessCount ∧ a.lastAccessed ≤ b.lastAccessed)

/-- Map-faithfulness of a warehouse state: component keys are distinct and
each component's source keys are distinct (automatically true of states
built through the `Map`-backed operations). -/
def wellKeyed (st : WarehouseState) : Prop :=
  (st.componentStorage.map Prod.fst).Nodup ∧
  ∀ p ∈ st.componentStorage, (p.2.dataSources.map Prod.fst).Nodup

/-- No expired source entry and no expired merged cache survives in `st`
relative to `now`. -/
def noExpiredEntries (st : WarehouseState) (now : Nat) : Prop :=
  ∀ cid s, aget st.componentStorage cid = some s →
    (∀ p ∈ s.dataSources, isExpired p.2 now = false) ∧
    (∀ m, s.mergedData = some m → isExpired m now = false)

/-- An editor environment with no bindable components (the common case for
parameters that do not use component-property bindings). -/
def emptyEditorEnv : EditorEnv :=
  { getComponentPropertyValue := fun _ => .jsUndefined, inferredNodeId := none }

/-- Warehouse holding value 1 for `("w","s")`, stored at t = 100. -/
def exWarehouse1 : WarehouseState :=
  storeComponentData {} "w" "s" (.num 1) "static" none 100

/-- Warehouse holding value 1 for `("w","s1")`, stored at t = 100. -/
def exWarehouseS1 : WarehouseState :=
  storeComponentData {} "w" "s1" (.num 1) "static" none 100

/-- Warehouse with a falsy `complete` source and a second source `s2`. -/
def exWarehouseComplete : WarehouseState :=
  storeComponentData
    (storeComponentData {} "w" "complete" (.bool false) "static" none 100)
    "w" "s2" (.num 7) "static" none 100

/-- Warehouse whose component `w` has a freshly built merged cache (a
`getComponentData` call at t = 100 rebuilt and cached `{s: 5}`). -/
def exWarehouseCached : WarehouseState :=
  (getComponentData (storeComponentData {} "w" "s" (.num 5) "static" none 100) "w" 100).1

/-- A stub executor failing exactly on source `s2`. -/
def exExecStub : SimpleDataSourceConfig → Except String JsValue := fun ds =>
  if ds.id = "s2" then .error "boom" else .ok (.num 5)

/-- A three-source requirement whose middle source fails under
`exExecStub`. -/
def exRequirement3 : ComponentDataRequirement :=
  { componentId := "w3",
    dataSources :=
      [{ id := "s1", type := "static" }, { id := "s2", type := "static" },
       { id := "s3", type := "static" }] }

/-- A plain GET request configuration. -/
def exHttpConfig : HttpDataItemConfig := { url := "http://api/x", method := "GET" }

/-- A parameter with an empty literal value and a configured default. -/
def exParamWithDefault : HttpParameter :=
  { key := "k", value := .str "", defaultValue := .str "fallback" }

/-- A parameter with a whitespace-only value and no default. -/
def exParamNoDefault : HttpParameter := { key := "k", value := .str " " }

/-- A large live entry: most recently (and most often) accessed, yet over
the memory budget by itself (a ~1 MiB JSON payload yields this `size`). -/
def exItemBig : DataStorageItem :=
  { data := .num 1, timestamp := 0, expiresAt := some 100000, sourceId := "s",
    sourceType := "static", componentId := "w", size := 2097152, accessCount := 3,
    lastAccessed := 500, dataVersion := none }

/-- Storage of component `w` holding only `exItemBig`. -/
def exStorageBig : ComponentDataStorage :=
  { componentId := "w", dataSources := [("s", exItemBig)], mergedData := none,
    createdAt := 0, updatedAt := 0 }

/-- A warehouse over budget (1 MB budget, one live 2 MiB entry). -/
def exWarehouseOverBudget : WarehouseState :=
  { componentStorage := [("w", exStorageBig)],
    componentChangeNotifiers := [], componentLatestVersions := [],
    config := { defaultCacheExpiry := 300000, maxMemoryUsage := 1, maxStorageItems := 1000 } }

/-- A config for an unregistered source kind. -/
def exUnknownKindConfig : UnifiedDataConfig := { id := "x", type := "custom" }

/-- A registry with one always-throwing executor for kind `static`. -/
def exThrowingRegistry : List (String × SourceExecutor) :=
  [("static", fun _ => .error "boom")]

/-- A config for the `static` kind. -/
def exStaticConfig : UnifiedDataConfig := { id := "y", type := "static" }

/-! ## Association-list lemmas -/

lemma aget_aset_self {α : Type} (l : List (String × α)) (k : String) (v : α) :
    aget (aset l k v) k = some v := by
  induction l with
  | nil => simp [aset, aget]
  | cons hd tl ih =>
    rcases hd with ⟨a, b⟩
    by_cases hak : a = k
    · simp [aset, aget, hak]
    · simp [aset, aget, hak, ih]

lemma aget_aset_ne {α : Type} (l : List (String × α)) (k k' : String) (v : α)
    (h : k' ≠ k) : aget (aset l k v) k' = aget l k' := by
  induction l with
  | nil => simp [aset, aget, Ne.symm h]
  | cons hd tl ih =>
    rcases hd with ⟨a, b⟩
    by_cases hak : a = k
    · subst hak
      simp [aset, aget, Ne.symm h]
    · by_cases hak2 : a = k'
      · simp [aset, aget, hak, hak2, h]
      · simp [aset, aget, hak, hak2, ih]

lemma aget_mem {α : Type} {l : List (String × α)} {k : String} {v : α}
    (h : aget l k = some v) : (k, v) ∈ l := by
  induction l with
  | nil => simp [aget] at h
  | cons hd tl ih =>
    rcases hd with ⟨a, b⟩
    by_cases hak : a = k
    · subst hak
      simp [aget] at h
      rw [← h]
      exact List.mem_cons_self _ _
    · simp [aget, hak] at h
      exact List.mem_cons_of_mem _ (ih h)

lemma mem_adel {α : Type} {l : List (String × α)} {k : String} {p : String × α}
    (h : p ∈ adel l k) : p ∈ l := by
  induction l with
  | nil => simp [adel] at h
  | cons hd tl ih =>
    by_cases hak : hd.1 = k
    · simp [adel, hak] at h
      exact List.mem_cons_of_mem _ h
    · simp [adel, hak] at h
      rcases h with h | h
      · exact h ▸ List.mem_cons_self _ _
      · exact List.mem_cons_of_mem _ (ih h)

lemma aget_adel_none {α : Type} (l : List (String × α)) (k k' : String)
    (h : aget l k' = none) : aget (adel l k) k' = none := by
  induction l with
  | nil => simpa [adel] using h
  | cons hd tl ih =>
    rcases hd with ⟨a, b⟩
    by_cases hak : a = k
    · subst hak
      by_cases hak2 : a = k'
      · simp [aget, hak2] at h
      · simp [aget, hak2, adel] at h ⊢
        exact h
    · by_cases hak2 : a = k'
      · simp [aget, hak2] at h
      · simp [aget, adel, hak, hak2] at h ⊢
        exact ih h

lemma aget_adel_self {α : Type} (l : List (String × α)) (k : String)
    (hnd : (l.map Prod.fst).Nodup) : aget (adel l k) k = none := by
  induction l with
  | nil => simp [adel, aget]
  | cons hd tl ih =>
    rcases hd with ⟨a, b⟩
    simp only [List.map_cons, List.nodup_cons] at hnd
    by_cases hak : a = k
    · subst hak
      simp only [adel, if_pos rfl]
      -- a no longer occurs among the tail keys
      cases hg : aget tl a with
      | none => exact hg
      | some w =>
        exact absurd (List.mem_map_of_mem Prod.fst (aget_mem hg)) hnd.1
    · simp [adel, aget, hak]
      exact ih hnd.2

lemma keys_aset_present {α : Type} (l : List (String × α)) (k : String) (v w : α)
    (h : aget l k = some w) : (aset l k v).map Prod.fst = l.map Prod.fst := by
  induction l with
  | nil => simp [aget] at h
  | cons hd tl ih =>
    rcases hd with ⟨a, b⟩
    by_cases hak : a = k
    · simp [aset, hak]
    · simp [aget, hak] at h
      simp [aset, hak, ih h]

lemma keys_adel_sublist {α : Type} (l : List (String × α)) (k : String) :
    List.Sublist ((adel l k).map Prod.fst) (l.map Prod.fst) := by
  induction l with
  | nil => simp [adel]
  | cons hd tl ih =>
    by_cases hak : hd.1 = k
    · simp only [adel, if_pos hak, List.map_cons]
      exact (List.sublist_cons_self _ _)
    · simp only [adel, if_neg hak, List.map_cons]
      exact ih.cons₂ _

lemma mem_aset {α : Type} {l : List (String × α)} {k : String} {v : α} {p : String × α}
    (h : p ∈ aset l k v) : p = (k, v) ∨ p ∈ l := by
  induction l with
  | nil => simpa [aset] using h
  | cons hd tl ih =>
    by_cases hak : hd.1 = k
    · rcases hd with ⟨a, b⟩
      subst hak
      simp only [aset, if_pos rfl] at h
      rcases List.mem_cons.mp h with h | h
      · exact Or.inl h
      · exact Or.inr (List.mem_cons_of_mem _ h)
    · simp only [aset, if_neg hak] at h
      rcases List.mem_cons.mp h with h | h
      · exact Or.inr (h ▸ List.mem_cons_self _ _)
      · rcases ih h with h | h
        · exact Or.inl h
        · exact Or.inr (List.mem_cons_of_mem _ h)

lemma aget_all {α : Type} {l : List (String × α)} {p : String × α → Bool} {k : String} {v : α}
    (hall : l.all p = true) (h : aget l k = some v) : p (k, v) = true := by
  have := (List.all_eq_true.mp hall) _ (aget_mem h)
  exact this

/-! ## Claim C1 — stale-write rejection on version `≥` -/

/-- C1 (counterexample): the claim says a write is silently dropped whenever
an existing entry for the same `(widgetId, sourceId)` key has a version
greater than **or equal to** the newly computed token (versions compare by
their embedded timestamps, the order `shouldAcceptData` implements).  In
the state holding value 1 for `("w","s")` (version timestamp 100), a second
store at the same timestamp computes a token whose timestamp ties the
stored entry's, so the claim demands a drop — yet the write is accepted and
overwrites the stored data with value 2. -/
theorem C1_counterexample :
    storedData exWarehouse1 "w" "s" = some (.num 1)
    ∧ (storedEntry exWarehouse1 "w" "s").bind (fun e => e.dataVersion) = some "w-100-1d"
    ∧ extractTimestampFromVersion "w-100-1d" ≥
        extractTimestampFromVersion (generateDataVersion "w" (.num 2) 100)
    ∧ storedData (storeComponentData exWarehouse1 "w" "s" (.num 2) "static" none 100) "w" "s"
        = some (.num 2)
    ∧ JsValue.num 2 ≠ JsValue.num 1 := by
  refine ⟨rfl, rfl, by decide, rfl, by simp⟩

/-- C1 (amended): a write is dropped only when the component's recorded
latest version carries a **strictly greater** timestamp than the new token;
ties are accepted.  Because the recorded latest version is always at least
every stored entry's version, an existing same-key entry whose version
timestamp strictly exceeds the new token's forces the silent drop: the
whole warehouse state — stored data, latest version, merged view, change
notifiers — is returned unchanged, and (the model being total) no exception
is raised. -/
theorem C1_theorem (st : WarehouseState) (componentId sourceId : String)
    (data : JsValue) (sourceType : String) (customExpiry : Option Nat) (now : Nat)
    (e : DataStorageItem) (v : String)
    (he : storedEntry st componentId sourceId = some e)
    (hv : e.dataVersion = some v)
    (hstrict : extractTimestampFromVersion v >
      extractTimestampFromVersion (generateDataVersion componentId data now))
    (hlatest : latestAtLeast st componentId (extractTimestampFromVersion v) = true) :
    storeComponentData st componentId sourceId data sourceType customExpiry now = st := by
  have hacc : shouldAcceptData st componentId
      (generateDataVersion componentId data now) = false := by
    unfold shouldAcceptData
    unfold latestAtLeast at hlatest
    cases hag : aget st.componentLatestVersions componentId with
    | none => rw [hag] at hlatest; simp at hlatest
    | some latestVersion =>
      rw [hag] at hlatest
      simp only [ge_iff_le, decide_eq_true_eq] at hlatest
      simp only [ge_iff_le, decide_eq_false_iff_not, not_le]
      omega
  unfold storeComponentData
  simp [hacc]

/-- Witness for `C1_theorem`: with the entry stored at timestamp 100, a
store carrying timestamp 50 is dropped and the state is unchanged. -/
theorem C1_theorem_witness :
    storeComponentData exWarehouse1 "w" "s" (.num 2) "static" none 50 = exWarehouse1 :=
  C1_theorem exWarehouse1 "w" "s" (.num 2) "static" none 50
    { data := .num 1, timestamp := 100, expiresAt := some 300100, sourceId := "s",
      sourceType := "static", componentId := "w", size := 2, accessCount := 0,
      lastAccessed := 100, dataVersion := some "w-100-1d" }
    "w-100-1d" rfl rfl (by decide) (by decide)

/-! ## Claim C2 — rejection scope: per key vs per widget -/

/-- C2 (counterexample): the claim says acceptance of a store to `(w, s2)`
depends only on versions previously stored for `(w, s2)` itself, and that
an accepted store to `(w, s1)` never causes a later store to `(w, s2)` to
be rejected.  But the warehouse tracks one latest version per component:
after an accepted store to `("w","s1")` with token timestamp 100, a store
to `("w","s2")` with token timestamp 50 is rejected (no entry appears),
although the very same store is accepted when the `("w","s1")` write never
happened. -/
theorem C2_counterexample :
    storeWriteAccepted {} "w" (.num 1) 100 = true
    ∧ (storedEntry exWarehouseS1 "w" "s1").isSome = true
    ∧ storedEntry (storeComponentData exWarehouseS1 "w" "s2" (.num 2) "static" none 50) "w" "s2"
        = none
    ∧ (storedEntry (storeComponentData {} "w" "s2" (.num 2) "static" none 50) "w" "s2").isSome
        = true
    ∧ ("s1" : String) ≠ "s2" := by
  refine ⟨rfl, rfl, rfl, rfl, by decide⟩

/-- C2 (amended): stale-write rejection is scoped per widget, not per
`(widgetId, sourceId)` key.  The warehouse keeps a single latest version per
`componentId`, so (1) a store to a different widget `w' ≠ w` never changes
the acceptance decision for `w`, while (2) within one widget the version
bookkeeping ignores the `sourceId` entirely: stores to the same widget with
the same data and time leave identical latest-version records regardless of
which source they target. -/
theorem C2_theorem (st : WarehouseState) (w w' s' : String) (d' : JsValue)
    (ty' : String) (ce' : Option Nat) (t' : Nat) (v : String)
    (s₁ s₂ : String) (d : JsValue) (ty : String) (ce : Option Nat) (t : Nat)
    (hne : w' ≠ w) :
    shouldAcceptData (storeComponentData st w' s' d' ty' ce' t') w v = shouldAcceptData st w v
    ∧ aget (storeComponentData st w s₁ d ty ce t).componentLatestVersions w
      = aget (storeComponentData st w s₂ d ty ce t).componentLatestVersions w := by
  constructor
  · have hlv : (storeComponentData st w' s' d' ty' ce' t').componentLatestVersions
        = st.componentLatestVersions
        ∨ (storeComponentData st w' s' d' ty' ce' t').componentLatestVersions
        = aset st.componentLatestVersions w' (generateDataVersion w' d' t') := by
      by_cases h1 : shouldAcceptData st w' (generateDataVersion w' d' t') = true
      · by_cases h2 : shouldRejectStorage st (calculateDataSize d') = true
        · exact Or.inl (by simp [storeComponentData, h1, h2])
        · exact Or.inr (by simp [storeComponentData, updateLatestDataVersion, h1, h2])
      · exact Or.inl (by simp [storeComponentData, h1])
    unfold shouldAcceptData
    rcases hlv with hlv | hlv
    · rw [hlv]
    · rw [hlv, aget_aset_ne _ _ _ _ (Ne.symm hne)]
  · by_cases h1 : shouldAcceptData st w (generateDataVersion w d t) = true
    · by_cases h2 : shouldRejectStorage st (calculateDataSize d) = true
      · simp [storeComponentData, h1, h2]
      · simp [storeComponentData, updateLatestDataVersion, h1, h2]
    · simp [storeComponentData, h1]

/-- Witness for `C2_theorem` at a concrete state, widgets and times. -/
theorem C2_theorem_witness :
    shouldAcceptData (storeComponentData exWarehouse1 "b" "s" (.num 3) "static" none 7)
        "w" "w-5-1d"
      = shouldAcceptData exWarehouse1 "w" "w-5-1d"
    ∧ aget (storeComponentData exWarehouse1 "w" "sA" (.num 3) "static" none 7).componentLatestVersions
          "w"
      = aget (storeComponentData exWarehouse1 "w" "sB" (.num 3) "static" none 7).componentLatestVersions
          "w" :=
  C2_theorem exWarehouse1 "w" "b" "s" (.num 3) "static" none 7 "w-5-1d"
    "sA" "sB" (.num 3) "static" none 7 (by decide)

/-! ## Claim C8 — per-widget isolation of `storeComponentData` -/

/-- C8: a `storeComponentData` call for widget `A` leaves every other
widget `B` untouched: `B`'s stored entries and cached merged view (the very
same storage record), `B`'s change notifier, and `B`'s recorded latest
version are unchanged — and when the write is accepted, `A`'s scoped change
signal is incremented by exactly one. -/
theorem C8_theorem (st : WarehouseState) (A B s : String) (d : JsValue)
    (ty : String) (ce : Option Nat) (now : Nat) (hBA : B ≠ A) :
    aget (storeComponentData st A s d ty ce now).componentStorage B
      = aget st.componentStorage B
    ∧ aget (storeComponentData st A s d ty ce now).componentChangeNotifiers B
      = aget st.componentChangeNotifiers B
    ∧ aget (storeComponentData st A s d ty ce now).componentLatestVersions B
      = aget st.componentLatestVersions B
    ∧ (storeWriteAccepted st A d now = true →
        aget (storeComponentData st A s d ty ce now).componentChangeNotifiers A
          = some ((aget st.componentChangeNotifiers A).getD 0 + 1)) := by
  by_cases h1 : shouldAcceptData st A (generateDataVersion A d now) = true
  · by_cases h2 : shouldRejectStorage st (calculateDataSize d) = true
    · refine ⟨by simp [storeComponentData, h1, h2], by simp [storeComponentData, h1, h2],
        by simp [storeComponentData, h1, h2], ?_⟩
      intro hacc
      simp [storeWriteAccepted, h2] at hacc
    · refine ⟨?_, ?_, ?_, ?_⟩
      · simp [storeComponentData, updateLatestDataVersion, h1, h2,
          aget_aset_ne _ _ _ _ hBA]
      · simp [storeComponentData, updateLatestDataVersion, h1, h2,
          aget_aset_ne _ _ _ _ hBA]
      · simp [storeComponentData, updateLatestDataVersion, h1, h2,
          aget_aset_ne _ _ _ _ hBA]
      · intro _
        simp [storeComponentData, updateLatestDataVersion, h1, h2, aget_aset_self]
  · refine ⟨by simp [storeComponentData, h1], by simp [storeComponentData, h1],
      by simp [storeComponentData, h1], ?_⟩
    intro hacc
    simp [storeWriteAccepted, h1] at hacc

/-- Witness for `C8_theorem`: storing for widget `w` leaves widget `b`
untouched, and bumps `w`'s notifier when accepted. -/
theorem C8_theorem_witness :
    aget (storeComponentData exWarehouse1 "w" "s" (.num 9) "static" none 200).componentStorage
        "b"
      = aget exWarehouse1.componentStorage "b"
    ∧ aget (storeComponentData exWarehouse1 "w" "s" (.num 9) "static" none 200).componentChangeNotifiers
        "b"
      = aget exWarehouse1.componentChangeNotifiers "b"
    ∧ aget (storeComponentData exWarehouse1 "w" "s" (.num 9) "static" none 200).componentLatestVersions
        "b"
      = aget exWarehouse1.componentLatestVersions "b"
    ∧ (storeWriteAccepted exWarehouse1 "w" (.num 9) 200 = true →
        aget (storeComponentData exWarehouse1 "w" "s" (.num 9) "static" none 200).componentChangeNotifiers
            "w"
          = some ((aget exWarehouse1.componentChangeNotifiers "w").getD 0 + 1)) :=
  C8_theorem exWarehouse1 "w" "b" "s" (.num 9) "static" none 200 (by decide)

/-! ## Claim C5 — unified-executor failure results -/

/-- C5 (counterexample): the dispatcher's fixed error code for an
unregistered source kind is `UNSUPPORTED_DATA_SOURCE`, not the
`UNSUPPORTED_SOURCE_KIND` the claim names: executing a config of the
unregistered kind `custom` against an empty registry yields a failure
result carrying `UNSUPPORTED_DATA_SOURCE`. -/
theorem C5_counterexample :
    unifiedExecute [] exUnknownKindConfig 0
      = { success := false, error := some "不支持的数据源类型: custom",
          errorCode := some "UNSUPPORTED_DATA_SOURCE", timestamp := 0, sourceId := "x" }
    ∧ (some "UNSUPPORTED_DATA_SOURCE" : Option String) ≠ some "UNSUPPORTED_SOURCE_KIND" := by
  refine ⟨rfl, by decide⟩

/-- C5 (amended): `UnifiedDataExecutor.execute` never lets an exception
cross its boundary (the model is a total function): for an enabled config
whose kind has no registered executor it returns a failure result with the
fixed code `UNSUPPORTED_DATA_SOURCE` rather than throwing, and when a
registered executor throws, the exception is converted into a failure
result with code `EXECUTOR_EXCEPTION`. -/
theorem C5_theorem (executors : List (String × SourceExecutor))
    (config : UnifiedDataConfig) (now : Nat)
    (henabled : config.enabled.getD true = true) :
    (aget executors config.type = none →
      unifiedExecute executors config now =
        { success := false, error := some ("不支持的数据源类型: " ++ config.type),
          errorCode := some "UNSUPPORTED_DATA_SOURCE", timestamp := now,
          sourceId := config.id })
    ∧ (∀ executor msg, aget executors config.type = some executor →
        executor config = .error msg →
        (unifiedExecute executors config now).success = false ∧
        (unifiedExecute executors config now).errorCode = some "EXECUTOR_EXCEPTION") := by
  constructor
  · intro hnone
    cases hcfg : config.enabled with
    | none => simp [unifiedExecute, hcfg, hnone]
    | some b =>
      rw [hcfg] at henabled
      simp at henabled
      simp [unifiedExecute, hcfg, henabled, hnone]
  · intro executor msg hsome hthrow
    cases hcfg : config.enabled with
    | none => constructor <;> simp [unifiedExecute, hcfg, hsome, hthrow]
    | some b =>
      rw [hcfg] at henabled
      simp at henabled
      constructor <;> simp [unifiedExecute, hcfg, henabled, hsome, hthrow]

/-- Witness for `C5_theorem`: an unknown kind against a registry holding
one throwing `static` executor, and the throwing executor itself. -/
theorem C5_theorem_witness :
    unifiedExecute exThrowingRegistry exUnknownKindConfig 5
      = { success := false, error := some "不支持的数据源类型: custom",
          errorCode := some "UNSUPPORTED_DATA_SOURCE", timestamp := 5, sourceId := "x" }
    ∧ (unifiedExecute exThrowingRegistry exStaticConfig 5).success = false
    ∧ (unifiedExecute exThrowingRegistry exStaticConfig 5).errorCode
        = some "EXECUTOR_EXCEPTION" := by
  refine ⟨(C5_theorem exThrowingRegistry exUnknownKindConfig 5 rfl).1 rfl, ?_, ?_⟩
  · exact ((C5_theorem exThrowingRegistry exStaticConfig 5 rfl).2 _ "boom" rfl rfl).1
  · exact ((C5_theorem exThrowingRegistry exStaticConfig 5 rfl).2 _ "boom" rfl rfl).2

/-! ## Claim C10 — `complete`-source unwrapping in `getComponentData` -/

/-- C10 (counterexample): the claim says that whenever the live entries
include one stored under the literal sourceId `complete`, the per-sourceId
map is not returned — the `complete` entry's data (or its nested
`deviceData.data`) is.  But the source guards the unwrap with a truthiness
test on the `complete` entry's data: with a falsy `complete` value
(`false`) stored alongside a source `s2`, `getComponentData` returns the
full per-sourceId map — including `s2`'s data, which the claim says must be
absent — rather than the `complete` entry's data itself. -/
theorem C10_counterexample :
    (getComponentData exWarehouseComplete "w" 150).2
      = some (.obj [("complete", .bool false), ("s2", .num 7)])
    ∧ (getComponentData exWarehouseComplete "w" 150).2 ≠ some (.bool false)
    ∧ storedData exWarehouseComplete "w" "complete" = some (.bool false)
    ∧ storedData exWarehouseComplete "w" "s2" = some (.num 7) := by
  refine ⟨rfl, ?_, rfl, rfl⟩
  intro h
  rw [show (getComponentData exWarehouseComplete "w" 150).2
      = some (.obj [("complete", .bool false), ("s2", .num 7)]) from rfl] at h
  exact JsValue.noConfusion (Option.some.inj h)

/-- C10 (amended): when `getComponentData` rebuilds (no fresh merged cache)
and collects a non-empty record `cd` of live source data, it returns
`unwrapComplete cd`, where the unwrap fires only for a **truthy**
`complete` entry: a truthy `complete` with truthy `deviceData` and truthy
`deviceData.data` yields the nested `deviceData.data`; a truthy `complete`
without that shape yields the `complete` data itself; a falsy or absent
`complete` yields the plain per-sourceId object with every live source
present. -/
theorem C10_theorem (st : WarehouseState) (cid : String) (now : Nat)
    (storage : ComponentDataStorage) (ks : List (String × DataStorageItem))
    (cd : List (String × JsValue))
    (h1 : aget st.componentStorage cid = some storage)
    (h2 : mergedCacheHit storage now = none)
    (hws : walkSources now storage.dataSources = (ks, cd))
    (hne : cd.isEmpty = false) :
    (getComponentData st cid now).2 = some (unwrapComplete cd)
    ∧ (∀ c, aget cd "complete" = some c →
        (truthy c = true →
          ((truthy (jsGet c "deviceData") && truthy (jsGet (jsGet c "deviceData") "data"))
              = true →
            unwrapComplete cd = jsGet (jsGet c "deviceData") "data")
          ∧ ((truthy (jsGet c "deviceData") && truthy (jsGet (jsGet c "deviceData") "data"))
              = false →
            unwrapComplete cd = c))
        ∧ (truthy c = false → unwrapComplete cd = .obj cd))
    ∧ (aget cd "complete" = none → unwrapComplete cd = .obj cd) := by
  refine ⟨?_, ?_, ?_⟩
  · unfold getComponentData
    cases hn : aget st.componentChangeNotifiers cid with
    | some n => simp [hn, h1, h2, rebuildComponentData, hws, hne]
    | none => simp [hn, h1, h2, rebuildComponentData, hws, hne]
  · intro c hc
    refine ⟨?_, ?_⟩
    · intro htr
      constructor
      · intro hdd
        unfold unwrapComplete
        rw [hc]
        simp [htr, hdd]
      · intro hdd
        unfold unwrapComplete
        rw [hc]
        simp [htr, hdd]
    · intro hfal
      unfold unwrapComplete
      rw [hc]
      simp [hfal]
  · intro hc
    unfold unwrapComplete
    rw [hc]

/-- Witness for `C10_theorem`: a widget with a single truthy `complete`
source carrying `deviceData.data = 42` has that nested value returned. -/
theorem C10_theorem_witness :
    (getComponentData
      { componentStorage :=
          [("w", { componentId := "w",
                   dataSources :=
                     [("complete",
                       { data := .obj [("deviceData", .obj [("data", .num 42)])],
                         timestamp := 0, expiresAt := none, sourceId := "complete",
                         sourceType := "static", componentId := "w", size := 10,
                         accessCount := 0, lastAccessed := 0, dataVersion := none })],
                   mergedData := none, createdAt := 0, updatedAt := 0 })],
        componentChangeNotifiers := [], componentLatestVersions := [], config := {} }
      "w" 5).2
      = some (unwrapComplete
          [("complete", .obj [("deviceData", .obj [("data", .num 42)])])])
    ∧ unwrapComplete [("complete", .obj [("deviceData", .obj [("data", .num 42)])])]
      = .num 42 := by
  have h := C10_theorem
    { componentStorage :=
        [("w", { componentId := "w",
                 dataSources :=
                   [("complete",
                     { data := .obj [("deviceData", .obj [("data", .num 42)])],
                       timestamp := 0, expiresAt := none, sourceId := "complete",
                       sourceType := "static", componentId := "w", size := 10,
                       accessCount := 0, lastAccessed := 0, dataVersion := none })],
                 mergedData := none, createdAt := 0, updatedAt := 0 })],
      componentChangeNotifiers := [], componentLatestVersions := [], config := {} }
    "w" 5
    { componentId := "w",
      dataSources :=
        [("complete",
          { data := .obj [("deviceData", .obj [("data", .num 42)])],
            timestamp := 0, expiresAt := none, sourceId := "complete",
            sourceType := "static", componentId := "w", size := 10,
            accessCount := 0, lastAccessed := 0, dataVersion := none })],
      mergedData := none, createdAt := 0, updatedAt := 0 }
    [("complete",
      { data := .obj [("deviceData", .obj [("data", .num 42)])],
        timestamp := 0, expiresAt := none, sourceId := "complete",
        sourceType := "static", componentId := "w", size := 10,
        accessCount := 1, lastAccessed := 5, dataVersion := none })]
    [("complete", .obj [("deviceData", .obj [("data", .num 42)])])]
    rfl rfl rfl rfl
  refine ⟨h.1, ?_⟩
  exact ((h.2.1 _ rfl).1 rfl).1 rfl

/-! ## Claim C4 — cache-first policy of `executeComponent` -/

lemma unwrapComplete_truthy (componentData : List (String × JsValue)) :
    truthy (unwrapComplete componentData) = true := by
  unfold unwrapComplete
  cases hc : aget componentData "complete" with
  | none => rfl
  | some completeData =>
    by_cases ht : truthy completeData = true
    · simp only [ht, if_true]
      by_cases hdd : (truthy (jsGet completeData "deviceData") &&
          truthy (jsGet (jsGet completeData "deviceData") "data")) = true
      · simp only [hdd, if_true]
        exact (Bool.and_eq_true ..).mp hdd |>.2
      · simp only [hdd]
        simpa using ht
    · simp [ht]
      rfl

lemma getComponentData_some_truthy (st : WarehouseState) (cid : String) (now : Nat)
    (v : JsValue) (hinv : mergedTruthyInv st = true)
    (h : (getComponentData st cid now).2 = some v) : truthy v = true := by
  unfold getComponentData at h
  cases hn : aget st.componentChangeNotifiers cid with
  | some n =>
    rw [hn] at h
    simp only at h
    cases hs : aget st.componentStorage cid with
    | none => rw [hs] at h; simp at h
    | some storage =>
      rw [hs] at h
      simp only at h
      cases hm : mergedCacheHit storage now with
      | some merged =>
        rw [hm] at h
        simp only [Option.some.injEq] at h
        subst h
        -- the cached merged view is truthy by the invariant
        unfold mergedCacheHit at hm
        cases hmd : storage.mergedData with
        | none => rw [hmd] at hm; simp at hm
        | some m0 =>
          rw [hmd] at hm
          by_cases hex : isExpired m0 now = true
          · simp [hex] at hm
          · simp only [Bool.not_eq_true] at hex
            simp only [hex, Bool.false_eq_true, not_false_eq_true, if_true,
              Option.some.injEq] at hm
            subst hm
            have := aget_all hinv hs
            simp only [hmd] at this
            exact this
      | none =>
        rw [hm] at h
        unfold rebuildComponentData at h
        rcases hws : walkSources now storage.dataSources with ⟨ks, cd⟩
        rw [hws] at h
        by_cases hne : cd.isEmpty = true
        · simp [hne] at h
        · simp only [Bool.not_eq_true] at hne
          simp only [hne, Bool.false_eq_true, if_false, Option.some.injEq] at h
          subst h
          exact unwrapComplete_truthy cd
  | none =>
    rw [hn] at h
    simp only at h
    cases hs : aget st.componentStorage cid with
    | none => rw [hs] at h; simp at h
    | some storage =>
      rw [hs] at h
      simp only at h
      cases hm : mergedCacheHit storage now with
      | some merged =>
        rw [hm] at h
        simp only [Option.some.injEq] at h
        subst h
        unfold mergedCacheHit at hm
        cases hmd : storage.mergedData with
        | none => rw [hmd] at hm; simp at hm
        | some m0 =>
          rw [hmd] at hm
          by_cases hex : isExpired m0 now = true
          · simp [hex] at hm
          · simp only [Bool.not_eq_true] at hex
            simp only [hex, Bool.false_eq_true, not_false_eq_true, if_true,
              Option.some.injEq] at hm
            subst hm
            have := aget_all hinv hs
            simp only [hmd] at this
            exact this
      | none =>
        rw [hm] at h
        unfold rebuildComponentData at h
        rcases hws : walkSources now storage.dataSources with ⟨ks, cd⟩
        rw [hws] at h
        by_cases hne : cd.isEmpty = true
        · simp [hne] at h
        · simp only [Bool.not_eq_true] at hne
          simp only [hne, Bool.false_eq_true, if_false, Option.some.injEq] at h
          subst h
          exact unwrapComplete_truthy cd

/-- C4: under the invariant that cached merged views are truthy (which all
warehouse operations maintain), whenever the warehouse read returns a
non-null merged view `v` for the requirement's component,
`executeComponent` returns `success = true` carrying exactly `v`, executes
none of the declared sources (the executed-source list is empty — no
executor call, hence no network call), and performs no warehouse writes
beyond the read's own bookkeeping. -/
theorem C4_theorem (exec : SimpleDataSourceConfig → Except String JsValue)
    (wh : WarehouseState) (req : ComponentDataRequirement) (now : Nat) (v : JsValue)
    (hinv : mergedTruthyInv wh = true)
    (hget : (getComponentData wh req.componentId now).2 = some v) :
    executeComponent exec wh req now =
      ((getComponentData wh req.componentId now).1,
       { success := true, data := some v, timestamp := now }, []) := by
  have ht := getComponentData_some_truthy wh req.componentId now v hinv hget
  simp [executeComponent, hget, ht]

/-- Witness for `C4_theorem`: a warehouse holding a freshly cached merged
view `{s: 5}` for `w` satisfies the invariant, and `executeComponent`
returns the cached value and invokes no executor — even one that would
fail every source. -/
theorem C4_theorem_witness :
    executeComponent exExecStub exWarehouseCached
        { componentId := "w", dataSources := exRequirement3.dataSources } 150 =
      ((getComponentData exWarehouseCached "w" 150).1,
       { success := true, data := some (.obj [("s", .num 5)]), timestamp := 150 }, []) :=
  C4_theorem exExecStub exWarehouseCached
    { componentId := "w", dataSources := exRequirement3.dataSources } 150
    (.obj [("s", .num 5)]) rfl rfl

/-! ## Claim C3 — partial-failure isolation in `executeComponent` -/

lemma bridgeFold_map_notmem (exec : SimpleDataSourceConfig → Except String JsValue)
    (cid : String) (now : Nat) (l : List SimpleDataSourceConfig)
    (acc : WarehouseState × List (String × JsValue) × List String) (k : String)
    (hk : k ∉ l.map (fun ds => ds.id)) :
    aget (l.foldl (bridgeStep exec cid now) acc).2.1 k = aget acc.2.1 k := by
  induction l generalizing acc with
  | nil => rfl
  | cons d rest ih =>
    simp only [List.map_cons, List.mem_cons, not_or] at hk
    rw [List.foldl_cons, ih _ hk.2]
    cases hd : exec d with
    | ok v => simp [bridgeStep, hd, aget_aset_ne _ _ _ _ hk.1]
    | error e => simp [bridgeStep, hd, aget_aset_ne _ _ _ _ hk.1]

lemma bridgeFold_map_mem (exec : SimpleDataSourceConfig → Except String JsValue)
    (cid : String) (now : Nat) (l : List SimpleDataSourceConfig)
    (acc : WarehouseState × List (String × JsValue) × List String)
    (ds : SimpleDataSourceConfig) (hds : ds ∈ l)
    (hnd : (l.map (fun d => d.id)).Nodup) :
    aget (l.foldl (bridgeStep exec cid now) acc).2.1 ds.id
      = some (match exec ds with | .ok v => v | .error _ => .null) := by
  induction l generalizing acc with
  | nil => simp at hds
  | cons d rest ih =>
    simp only [List.map_cons, List.nodup_cons] at hnd
    rcases List.mem_cons.mp hds with hds | hds
    · subst hds
      rw [List.foldl_cons, bridgeFold_map_notmem exec cid now rest _ ds.id hnd.1]
      cases hd : exec ds with
      | ok v => simp [bridgeStep, hd, aget_aset_self]
      | error e => simp [bridgeStep, hd, aget_aset_self]
    · exact List.foldl_cons _ _ ▸ ih _ hds hnd.2

lemma bridgeFold_executed (exec : SimpleDataSourceConfig → Except String JsValue)
    (cid : String) (now : Nat) (l : List SimpleDataSourceConfig)
    (acc : WarehouseState × List (String × JsValue) × List String) :
    (l.foldl (bridgeStep exec cid now) acc).2.2 = acc.2.2 ++ l.map (fun ds => ds.id) := by
  induction l generalizing acc with
  | nil => simp
  | cons d rest ih =>
    rw [List.foldl_cons, ih]
    cases hd : exec d with
    | ok v => simp [bridgeStep, hd]
    | error e => simp [bridgeStep, hd]

/-- C3: on a cache miss, `executeComponent` runs every declared source (all
of them are invoked — one source's failure cancels none of the others) and
resolves with `success = true`; in the returned record each failed source's
id maps to `null` and each successful source's id maps to its value.  The
model is total, so the only failure channel is the `success` flag — no
exception escapes. -/
theorem C3_theorem (exec : SimpleDataSourceConfig → Except String JsValue)
    (wh : WarehouseState) (req : ComponentDataRequirement) (now : Nat)
    (hmiss : (getComponentData wh req.componentId now).2 = none)
    (hids : (req.dataSources.map (fun ds => ds.id)).Nodup) :
    (executeComponent exec wh req now).2.1.success = true
    ∧ (∃ m, (executeComponent exec wh req now).2.1.data = some (.obj m)
        ∧ ∀ ds ∈ req.dataSources,
            aget m ds.id = some (match exec ds with | .ok v => v | .error _ => .null))
    ∧ (executeComponent exec wh req now).2.2 = req.dataSources.map (fun ds => ds.id) := by
  have hrun : executeComponent exec wh req now
      = executeAllSources exec (getComponentData wh req.componentId now).1 req now := by
    simp [executeComponent, hmiss]
  rw [hrun]
  refine ⟨rfl, ⟨(req.dataSources.foldl
      (bridgeStep exec req.componentId now)
      ((getComponentData wh req.componentId now).1, [], [])).2.1, rfl, ?_⟩, ?_⟩
  · intro ds hds
    exact bridgeFold_map_mem exec req.componentId now req.dataSources _ ds hds hids
  · exact bridgeFold_executed exec req.componentId now req.dataSources _

/-- Witness for `C3_theorem`: three sources where the middle one fails
under `exExecStub` — all three are executed, the result is successful, and
the record maps `s1, s3` to 5 and `s2` to `null`. -/
theorem C3_theorem_witness :
    (executeComponent exExecStub {} exRequirement3 100).2.1.success = true
    ∧ (∃ m, (executeComponent exExecStub {} exRequirement3 100).2.1.data = some (.obj m)
        ∧ ∀ ds ∈ exRequirement3.dataSources,
            aget m ds.id = some (match exExecStub ds with | .ok v => v | .error _ => .null))
    ∧ (executeComponent exExecStub {} exRequirement3 100).2.2
        = exRequirement3.dataSources.map (fun ds => ds.id) :=
  C3_theorem exExecStub {} exRequirement3 100 rfl (by decide)

/-! ## Claim C6 — empty parameters: default fallback or full omission -/

lemma foldl_filter_skip {α β : Type} (f : β → α → β) (p : α → Bool) (x : α)
    (l₁ l₂ : List α) (b : β) (hx : ∀ acc, f acc x = acc) :
    ((l₁ ++ x :: l₂).filter p).foldl f b = ((l₁ ++ l₂).filter p).foldl f b := by
  by_cases hpx : p x = true
  · rw [List.filter_append, List.filter_append, List.filter_cons, if_pos hpx,
      List.foldl_append, List.foldl_append, List.foldl_cons, hx]
  · rw [List.filter_append, List.filter_append, List.filter_cons,
      if_neg (by simp [hpx])]

lemma resolveParameterValue_skip (env : EditorEnv) (param : HttpParameter)
    (he : isEmptyResolved (preResolveValue env param) = true)
    (hdef : defaultConfigured param = false) :
    resolveParameterValue env param = none := by
  simp [resolveParameterValue, he, hdef]

lemma applyPathParams_skip (env : EditorEnv) (config : HttpDataItemConfig)
    (param : HttpParameter) (l₁ l₂ : List HttpParameter)
    (hpp : config.pathParameter = none)
    (hskip : resolveParameterValue env param = none) :
    applyPathParams env { config with pathParams := l₁ ++ param :: l₂ }
      = applyPathParams env { config with pathParams := l₁ ++ l₂ } := by
  have hne1 : (l₁ ++ param :: l₂).isEmpty = false := by
    cases l₁ <;> simp
  by_cases hrest : (l₁ ++ l₂).isEmpty = true
  · rcases List.append_eq_nil.mp (List.isEmpty_iff.mp hrest) with ⟨h1, h2⟩
    subst h1; subst h2
    simp only [List.nil_append] at hne1 ⊢
    unfold applyPathParams
    simp only [hne1, hrest, hpp, Bool.not_false, Bool.not_true, if_true, if_false,
      Bool.false_eq_true]
    by_cases hact : paramActive param = true
    · simp [List.filter_cons, hact, hskip]
    · simp [List.filter_cons, hact]
  · rw [Bool.not_eq_true] at hrest
    unfold applyPathParams
    simp only [hne1, hrest, Bool.not_false, if_true]
    exact foldl_filter_skip _ paramActive param l₁ l₂ config.url
      (fun acc => by simp [hskip])

lemma buildHttpRequest_skip_pathParams (env : EditorEnv) (config : HttpDataItemConfig)
    (param : HttpParameter) (l₁ l₂ : List HttpParameter)
    (hpp : config.pathParameter = none)
    (hskip : resolveParameterValue env param = none) :
    buildHttpRequest env { config with pathParams := l₁ ++ param :: l₂ }
      = buildHttpRequest env { config with pathParams := l₁ ++ l₂ } := by
  unfold buildHttpRequest
  rw [applyPathParams_skip env config param l₁ l₂ hpp hskip]

lemma buildHttpRequest_skip_params (env : EditorEnv) (config : HttpDataItemConfig)
    (param : HttpParameter) (l₁ l₂ : List HttpParameter)
    (hparameters : config.parameters = [])
    (hskip : resolveParameterValue env param = none) :
    buildHttpRequest env { config with params := l₁ ++ param :: l₂ }
      = buildHttpRequest env { config with params := l₁ ++ l₂ } := by
  have hne1 : (l₁ ++ param :: l₂).isEmpty = false := by
    cases l₁ <;> simp
  have hu : ∀ X : List HttpParameter,
      applyPathParams env { config with params := X } = applyPathParams env config :=
    fun _ => rfl
  by_cases hrest : (l₁ ++ l₂).isEmpty = true
  · rcases List.append_eq_nil.mp (List.isEmpty_iff.mp hrest) with ⟨h1, h2⟩
    subst h1; subst h2
    simp only [List.nil_append] at hne1 ⊢
    unfold buildHttpRequest
    simp only [hu, hne1, hrest, hparameters, Bool.not_false, Bool.not_true, if_true,
      if_false, Bool.false_eq_true, List.isEmpty_nil]
    by_cases hact : paramActive param = true
    · simp [List.filter_cons, hact, hskip]
      rfl
    · simp [List.filter_cons, hact]
      rfl
  · rw [Bool.not_eq_true] at hrest
    unfold buildHttpRequest
    simp only [hu, hne1, hrest, Bool.not_false, if_true]
    rw [foldl_filter_skip _ paramActive param l₁ l₂ []
      (fun acc => by simp [hskip])]

lemma buildHttpRequest_skip_parameters (env : EditorEnv) (config : HttpDataItemConfig)
    (param : HttpParameter) (l₁ l₂ : List HttpParameter)
    (hparams : config.params = [])
    (hskip : resolveParameterValue env param = none) :
    buildHttpRequest env { config with parameters := l₁ ++ param :: l₂ }
      = buildHttpRequest env { config with parameters := l₁ ++ l₂ } := by
  have hne1 : (l₁ ++ param :: l₂).isEmpty = false := by
    cases l₁ <;> simp
  have hu : ∀ X : List HttpParameter,
      applyPathParams env { config with parameters := X } = applyPathParams env config :=
    fun _ => rfl
  by_cases hrest : (l₁ ++ l₂).isEmpty = true
  · rcases List.append_eq_nil.mp (List.isEmpty_iff.mp hrest) with ⟨h1, h2⟩
    subst h1; subst h2
    simp only [List.nil_append] at hne1 ⊢
    unfold buildHttpRequest
    simp only [hu, hne1, hrest, hparams, Bool.not_false, Bool.not_true, if_true,
      if_false, Bool.false_eq_true, List.isEmpty_nil]
    by_cases hact : paramActive param = true
    · simp [List.filter_cons, hact, hskip, unifiedParamStep]
      rfl
    · simp [List.filter_cons, hact]
      rfl
  · rw [Bool.not_eq_true] at hrest
    unfold buildHttpRequest
    simp only [hu, hne1, hrest, hparams, Bool.not_false, if_true, List.isEmpty_nil,
      Bool.not_true, if_false, Bool.false_eq_true]
    rw [foldl_filter_skip (unifiedParamStep env) paramActive param l₁ l₂ _
      (fun acc => by simp [unifiedParamStep, hskip])]
    rfl

/-- C6: for a parameter whose resolved value is empty (`null`, `undefined`,
empty or whitespace-only string): with a configured `defaultValue` the
parameter resolves to that default converted to its declared `dataType`;
without one the resolver returns the skip marker and the HTTP request
builder omits the parameter entirely — inserting it anywhere into the
path-parameter, query-parameter or unified-parameter list leaves the built
request (URL substitution, query map, headers) exactly as if the parameter
were never declared, so its key is never sent with an empty value.
(`convertValue` is modelled from the spec, its source file not being
available.) -/
theorem C6_theorem (env : EditorEnv) (param : HttpParameter)
    (he : isEmptyResolved (preResolveValue env param) = true) :
    (defaultConfigured param = true →
      resolveParameterValue env param
        = some (convertValue param.defaultValue param.dataType))
    ∧ (defaultConfigured param = false →
        resolveParameterValue env param = none
        ∧ (∀ config : HttpDataItemConfig, ∀ l₁ l₂, config.pathParameter = none →
            buildHttpRequest env { config with pathParams := l₁ ++ param :: l₂ }
              = buildHttpRequest env { config with pathParams := l₁ ++ l₂ })
        ∧ (∀ config : HttpDataItemConfig, ∀ l₁ l₂, config.parameters = [] →
            buildHttpRequest env { config with params := l₁ ++ param :: l₂ }
              = buildHttpRequest env { config with params := l₁ ++ l₂ })
        ∧ (∀ config : HttpDataItemConfig, ∀ l₁ l₂, config.params = [] →
            buildHttpRequest env { config with parameters := l₁ ++ param :: l₂ }
              = buildHttpRequest env { config with parameters := l₁ ++ l₂ })) := by
  constructor
  · intro hdef
    simp [resolveParameterValue, he, hdef]
  · intro hdef
    have hskip := resolveParameterValue_skip env param he hdef
    refine ⟨hskip, ?_, ?_, ?_⟩
    · intro config l₁ l₂ hpp
      exact buildHttpRequest_skip_pathParams env config param l₁ l₂ hpp hskip
    · intro config l₁ l₂ hps
      exact buildHttpRequest_skip_params env config param l₁ l₂ hps hskip
    · intro config l₁ l₂ hps
      exact buildHttpRequest_skip_parameters env config param l₁ l₂ hps hskip

/-- Witness for `C6_theorem`: an empty-valued parameter with default
`"fallback"` resolves to the converted default; a whitespace-valued
parameter without default resolves to the skip marker and its insertion
into the query list of a concrete request changes nothing. -/
theorem C6_theorem_witness :
    resolveParameterValue emptyEditorEnv exParamWithDefault = some (.str "fallback")
    ∧ resolveParameterValue emptyEditorEnv exParamNoDefault = none
    ∧ buildHttpRequest emptyEditorEnv
        { exHttpConfig with params := [] ++ exParamNoDefault :: [] }
      = buildHttpRequest emptyEditorEnv { exHttpConfig with params := [] ++ [] } := by
  refine ⟨?_, ?_, ?_⟩
  · exact (C6_theorem emptyEditorEnv exParamWithDefault rfl).1 rfl
  · exact ((C6_theorem emptyEditorEnv exParamNoDefault rfl).2 rfl).1
  · exact ((C6_theorem emptyEditorEnv exParamNoDefault rfl).2 rfl).2.2.1 exHttpConfig [] [] rfl

/-! ## Claim C7 — HTTP request dedup window -/

lemma findEntry_filter_none (l : List DedupEntry) (k : String) (p : DedupEntry → Bool)
    (h : findEntry l k = none) : findEntry (l.filter p) k = none := by
  induction l with
  | nil => simp [findEntry]
  | cons e rest ih =>
    by_cases hk : e.key = k
    · simp [findEntry, hk] at h
    · simp only [findEntry, hk, if_false] at h
      by_cases hp : p e = true
      · simp [List.filter_cons, hp, findEntry, hk, ih h]
      · simp [List.filter_cons, hp, ih h]

lemma findEntry_append_right (l : List DedupEntry) (e : DedupEntry) (k : String)
    (h : findEntry l k = none) : findEntry (l ++ [e]) k = findEntry [e] k := by
  induction l with
  | nil => simp
  | cons e2 rest ih =>
    by_cases hk : e2.key = k
    · simp [findEntry, hk] at h
    · simp only [findEntry, hk, if_false] at h
      simp [findEntry, hk, ih h]

/-- C7 (counterexample): the claim says the in-flight dedup entry is
removed 200 ms after **completion** of the underlying request.  The source
schedules the removal 200 ms after the request is *initiated*, regardless
of completion: a request starting at t = 0 (and completing at, say,
t = 500) has its entry removed at t = 200 already, so a structurally
identical call at t = 300 — squarely inside the claim's
completion-plus-200ms window, 300 < 500 + 200 — misses the table and
issues a second underlying network request. -/
theorem C7_counterexample :
    (fetchHttpData emptyEditorEnv {} exHttpConfig 0).2.2 = true
    ∧ (fetchHttpData emptyEditorEnv (fetchHttpData emptyEditorEnv {} exHttpConfig 0).1
        exHttpConfig 300).2.2 = true
    ∧ (fetchHttpData emptyEditorEnv (fetchHttpData emptyEditorEnv {} exHttpConfig 0).1
        exHttpConfig 300).1.issued = 2
    ∧ 300 < 500 + REQUEST_CACHE_TTL := by
  refine ⟨rfl, rfl, rfl, by decide⟩

lemma fetchStep_hit (st0 : DedupState) (k : String) (t : Nat) (e : DedupEntry)
    (hfind : findEntry (purgeDue st0 t).entries k = some e) :
    fetchHttpDataStep st0 k t = (purgeDue st0 t, e.reqId, false) := by
  unfold fetchHttpDataStep
  simp only [hfind]

lemma fetchStep_fresh (st0 : DedupState) (k : String) (t : Nat)
    (hfind : findEntry (purgeDue st0 t).entries k = none) :
    fetchHttpDataStep st0 k t =
      ({ entries := (purgeDue st0 t).entries ++
            [{ key := k, reqId := st0.nextReqId, deleteAt := t + REQUEST_CACHE_TTL }],
         nextReqId := st0.nextReqId + 1, issued := st0.issued + 1 },
       st0.nextReqId, true) := by
  unfold fetchHttpDataStep
  simp only [hfind]
  rfl

/-- C7 (amended): two `fetchHttpData` calls whose configs produce the same
deduplication key share one underlying request while the first call's entry
is still in the table: a second call strictly inside the 200 ms window
**after the first request was initiated** issues no new underlying request
and receives the very same underlying request's result.  The entry is
removed 200 ms after initiation (not completion): from
`t + REQUEST_CACHE_TTL` onward the table holds no trace of the first call's
entry, however late the request completes. -/
theorem C7_theorem (env : EditorEnv) (st0 : DedupState) (c1 c2 : HttpDataItemConfig)
    (t t' t2 : Nat)
    (hk : generateRequestKey env c1 = generateRequestKey env c2)
    (hfresh : (fetchHttpData env st0 c1 t).2.2 = true)
    (h1 : t ≤ t') (h2 : t' < t + REQUEST_CACHE_TTL) (h3 : t + REQUEST_CACHE_TTL ≤ t2) :
    ((fetchHttpData env (fetchHttpData env st0 c1 t).1 c2 t').2.1
        = (fetchHttpData env st0 c1 t).2.1
      ∧ (fetchHttpData env (fetchHttpData env st0 c1 t).1 c2 t').2.2 = false
      ∧ ((fetchHttpData env (fetchHttpData env st0 c1 t).1 c2 t').1).issued
        = ((fetchHttpData env st0 c1 t).1).issued)
    ∧ findEntry (purgeDue (fetchHttpData env st0 c1 t).1 t2).entries
          (generateRequestKey env c1)
      = findEntry (purgeDue st0 t2).entries (generateRequestKey env c1) := by
  unfold fetchHttpData at hfresh ⊢
  rw [← hk]
  cases hfind : findEntry (purgeDue st0 t).entries (generateRequestKey env c1) with
  | some e =>
    rw [fetchStep_hit st0 _ t e hfind] at hfresh
    simp at hfresh
  | none =>
    rw [fetchStep_fresh st0 _ t hfind] at hfresh ⊢
    have hsurvB : (decide (¬ t + REQUEST_CACHE_TTL ≤ t')) = true := by
      simp
      omega
    have hgoneB : (decide (¬ t + REQUEST_CACHE_TTL ≤ t2)) = false := by
      simp
      omega
    constructor
    · -- the second call finds the appended entry
      have hfind' : findEntry (List.filter (fun e => decide (¬ e.deleteAt ≤ t))
          st0.entries) (generateRequestKey env c1) = none := by
        simpa [purgeDue] using hfind
      have hpp : findEntry (List.filter (fun e => decide (¬ e.deleteAt ≤ t'))
          (List.filter (fun e => decide (¬ e.deleteAt ≤ t)) st0.entries))
          (generateRequestKey env c1) = none :=
        findEntry_filter_none _ _ _ hfind'
      have hfind2 : findEntry (purgeDue
          ({ entries := (purgeDue st0 t).entries ++
                [{ key := generateRequestKey env c1, reqId := st0.nextReqId,
                   deleteAt := t + REQUEST_CACHE_TTL }],
             nextReqId := st0.nextReqId + 1, issued := st0.issued + 1 } : DedupState)
          t').entries (generateRequestKey env c1)
          = some { key := generateRequestKey env c1, reqId := st0.nextReqId,
                   deleteAt := t + REQUEST_CACHE_TTL } := by
        simp only [purgeDue, List.filter_append, List.filter_cons, hsurvB, if_true,
          List.filter_nil]
        rw [findEntry_append_right _ _ _ hpp]
        simp [findEntry]
      rw [fetchStep_hit _ _ t' _ hfind2]
      exact ⟨rfl, rfl, rfl⟩
    · -- from t + TTL on, the appended entry is purged again
      simp only [purgeDue, List.filter_append, List.filter_cons, hgoneB,
        List.filter_nil, List.append_nil, Bool.false_eq_true, if_false]
      rw [List.filter_filter]
      have hcomb : ∀ e : DedupEntry,
          ((decide (¬ e.deleteAt ≤ t2)) && (decide (¬ e.deleteAt ≤ t)))
            = decide (¬ e.deleteAt ≤ t2) := by
        intro e
        by_cases hle : e.deleteAt ≤ t2
        · simp [hle]
        · have hlt : ¬ e.deleteAt ≤ t := by omega
          simp [hle, hlt]
      simp only [hcomb]

/-- Witness for `C7_theorem`: two identical GET requests at t = 0 and
t = 150 share one underlying request; at t = 200 the entry is gone. -/
theorem C7_theorem_witness :
    ((fetchHttpData emptyEditorEnv (fetchHttpData emptyEditorEnv {} exHttpConfig 0).1
          exHttpConfig 150).2.1
        = (fetchHttpData emptyEditorEnv {} exHttpConfig 0).2.1
      ∧ (fetchHttpData emptyEditorEnv (fetchHttpData emptyEditorEnv {} exHttpConfig 0).1
          exHttpConfig 150).2.2 = false
      ∧ ((fetchHttpData emptyEditorEnv (fetchHttpData emptyEditorEnv {} exHttpConfig 0).1
          exHttpConfig 150).1).issued
        = ((fetchHttpData emptyEditorEnv {} exHttpConfig 0).1).issued)
    ∧ findEntry (purgeDue (fetchHttpData emptyEditorEnv {} exHttpConfig 0).1 200).entries
          (generateRequestKey emptyEditorEnv exHttpConfig)
      = findEntry (purgeDue ({} : DedupState) 200).entries
          (generateRequestKey emptyEditorEnv exHttpConfig) :=
  C7_theorem emptyEditorEnv {} exHttpConfig exHttpConfig 0 150 200 rfl rfl
    (by decide) (by decide) (by decide)

/-! ## Claim C9 — the periodic cleanup sweep -/

lemma aget_aset_cases {α : Type} {l : List (String × α)} {k k' : String} {v x : α}
    (h : aget (aset l k v) k' = some x) :
    (k' = k ∧ x = v) ∨ (k' ≠ k ∧ aget l k' = some x) := by
  by_cases hk : k' = k
  · subst hk
    rw [aget_aset_self] at h
    exact Or.inl ⟨rfl, (Option.some.inj h).symm⟩
  · rw [aget_aset_ne _ _ _ _ hk] at h
    exact Or.inr ⟨hk, h⟩

lemma cleanupStorage_props {storage : ComponentDataStorage} {now : Nat}
    {s2 : ComponentDataStorage} (h : cleanupStorage storage now = some s2) :
    (∀ p ∈ s2.dataSources, isExpired p.2 now = false)
    ∧ (∀ m, s2.mergedData = some m → isExpired m now = false)
    ∧ (s2.dataSources ≠ [] ∨ s2.mergedData.isSome = true) := by
  unfold cleanupStorage at h
  by_cases hcond : (storage.dataSources.filter (fun p => ¬ isExpired p.2 now)).isEmpty
      ∧ (match storage.mergedData with
         | some m => if isExpired m now then none else some m
         | none => none).isNone
  · rw [if_pos hcond] at h
    exact absurd h (by simp)
  · rw [if_neg hcond] at h
    rw [← Option.some.inj h]
    refine ⟨?_, ?_, ?_⟩
    · intro p hp
      have := List.of_mem_filter hp
      simpa using this
    · intro m hm
      simp only at hm
      cases hmd : storage.mergedData with
      | none => rw [hmd] at hm; simp at hm
      | some m0 =>
        rw [hmd] at hm
        by_cases hex : isExpired m0 now = true
        · simp [hex] at hm
        · simp [hex] at hm
          rw [← hm]
          simpa using hex
    · simp only [not_and_or] at hcond
      rcases hcond with hcond | hcond
    -- either the survivor list is non-empty or a live merged cache remains
      · exact Or.inl (by simpa [List.isEmpty_iff] using hcond)
      · exact Or.inr (by simpa [Option.isNone_iff_eq_none, Option.isSome_iff_ne_none]
          using hcond)

lemma phase1_aget {l : List (String × ComponentDataStorage)} {now : Nat}
    {cid : String} {s : ComponentDataStorage}
    (h : aget (l.filterMap
        (fun p => (cleanupStorage p.2 now).map (fun s2 => (p.1, s2)))) cid = some s) :
    ∃ orig, (cid, orig) ∈ l ∧ cleanupStorage orig now = some s := by
  induction l with
  | nil => simp [aget] at h
  | cons hd tl ih =>
    rcases hd with ⟨k, stg⟩
    cases hcs : cleanupStorage stg now with
    | none =>
      rw [List.filterMap_cons] at h
      simp only [hcs, Option.map_none] at h
      rcases ih h with ⟨orig, horig, hcl⟩
      exact ⟨orig, List.mem_cons_of_mem _ horig, hcl⟩
    | some s2 =>
      rw [List.filterMap_cons] at h
      simp only [hcs, Option.map_some] at h
      by_cases hk : k = cid
      · subst hk
        simp only [aget, if_pos rfl, Option.some.injEq] at h
        exact ⟨stg, List.mem_cons_self _ _, h ▸ hcs⟩
      · simp only [aget, hk, if_false] at h
        rcases ih h with ⟨orig, horig, hcl⟩
        exact ⟨orig, List.mem_cons_of_mem _ horig, hcl⟩

lemma phase1_noExpired (st : WarehouseState) (now : Nat) :
    noExpiredEntries (cleanupPhase1 st now) now := by
  intro cid s h
  simp only [cleanupPhase1] at h
  rcases phase1_aget h with ⟨orig, _, hcl⟩
  have := cleanupStorage_props hcl
  exact ⟨this.1, this.2.1⟩

lemma phase1_valid (st : WarehouseState) (now : Nat) :
    ∀ cid s, aget (cleanupPhase1 st now).componentStorage cid = some s →
      s.dataSources ≠ [] ∨ s.mergedData.isSome = true := by
  intro cid s h
  simp only [cleanupPhase1] at h
  rcases phase1_aget h with ⟨orig, _, hcl⟩
  exact (cleanupStorage_props hcl).2.2

lemma clear_cases (st : WarehouseState) (c s : String) :
    (clearDataSourceCache st c s = st ∧ storedEntry st c s = none)
    ∨ ∃ storage item, aget st.componentStorage c = some storage ∧
        aget storage.dataSources s = some item ∧
        (clearDataSourceCache st c s).componentStorage
          = aset st.componentStorage c
              { storage with
                  dataSources := adel storage.dataSources s, mergedData := none } := by
  cases h1 : aget st.componentStorage c with
  | none =>
    left
    constructor
    · simp [clearDataSourceCache, h1]
    · simp [storedEntry, h1]
  | some storage =>
    cases h2 : aget storage.dataSources s with
    | none =>
      left
      constructor
      · simp [clearDataSourceCache, h1, h2]
      · simp [storedEntry, h1, h2]
    | some item =>
      right
      refine ⟨storage, item, by simp [h1], by simp [h2], ?_⟩
      simp only [clearDataSourceCache, h1, h2]
      cases h3 : aget st.componentChangeNotifiers c <;> simp [h3]

lemma clear_noExpired (st : WarehouseState) (c s : String) (now : Nat)
    (h : noExpiredEntries st now) :
    noExpiredEntries (clearDataSourceCache st c s) now := by
  intro cid s' hget
  rcases clear_cases st c s with ⟨heq, _⟩ | ⟨storage, item, h1, h2, hcs⟩
  · rw [heq] at hget
    exact h cid s' hget
  · rw [hcs] at hget
    rcases aget_aset_cases hget with ⟨hcid, hs'⟩ | ⟨_, hget'⟩
    · subst hcid
      subst hs'
      constructor
      · intro p hp
        exact (h _ storage h1).1 p (mem_adel hp)
      · intro m hm
        simp at hm
    · exact h cid s' hget'

lemma foldClear_noExpired (rs : List ItemRef) (st : WarehouseState) (now : Nat)
    (h : noExpiredEntries st now) :
    noExpiredEntries
      (rs.foldl (fun s r => clearDataSourceCache s r.componentId r.sourceId) st) now := by
  induction rs generalizing st with
  | nil => exact h
  | cons r rest ih =>
    rw [List.foldl_cons]
    exact ih _ (clear_noExpired st r.componentId r.sourceId now h)

lemma storedEntry_clear_self (st : WarehouseState) (c s : String)
    (hwk : wellKeyed st) : storedEntry (clearDataSourceCache st c s) c s = none := by
  rcases clear_cases st c s with ⟨heq, hnone⟩ | ⟨storage, item, h1, h2, hcs⟩
  · rw [heq]
    exact hnone
  · unfold storedEntry
    rw [hcs, aget_aset_self]
    exact aget_adel_self _ _ (hwk.2 (c, storage) (aget_mem h1))

lemma storedEntry_clear_mono (st : WarehouseState) (c s c' s' : String)
    (hnone : storedEntry st c s = none) :
    storedEntry (clearDataSourceCache st c' s') c s = none := by
  rcases clear_cases st c' s' with ⟨heq, _⟩ | ⟨storage, item, h1, h2, hcs⟩
  · rw [heq]
    exact hnone
  · unfold storedEntry at hnone ⊢
    rw [hcs]
    by_cases hc : c = c'
    · subst hc
      rw [aget_aset_self]
      rw [h1] at hnone
      simp only at hnone
      exact aget_adel_none _ _ _ hnone
    · rw [aget_aset_ne _ _ _ _ hc]
      exact hnone

lemma wellKeyed_clear (st : WarehouseState) (c s : String) (hwk : wellKeyed st) :
    wellKeyed (clearDataSourceCache st c s) := by
  rcases clear_cases st c s with ⟨heq, _⟩ | ⟨storage, item, h1, h2, hcs⟩
  · rw [heq]
    exact hwk
  · constructor
    · rw [hcs, keys_aset_present _ _ _ _ h1]
      exact hwk.1
    · intro p hp
      rw [hcs] at hp
      rcases mem_aset hp with hp | hp
      · subst hp
        exact (hwk.2 (c, storage) (aget_mem h1)).sublist (keys_adel_sublist _ _)
      · exact hwk.2 p hp

lemma foldClear_mono (rs : List ItemRef) (st : WarehouseState) (c s : String)
    (hnone : storedEntry st c s = none) :
    storedEntry
      (rs.foldl (fun s2 r => clearDataSourceCache s2 r.componentId r.sourceId) st)
      c s = none := by
  induction rs generalizing st with
  | nil => exact hnone
  | cons r rest ih =>
    rw [List.foldl_cons]
    exact ih _ (storedEntry_clear_mono _ _ _ _ _ hnone)

lemma foldClear_removes (rs : List ItemRef) (st : WarehouseState)
    (hwk : wellKeyed st) :
    ∀ r ∈ rs, storedEntry
      (rs.foldl (fun s2 r2 => clearDataSourceCache s2 r2.componentId r2.sourceId) st)
      r.componentId r.sourceId = none := by
  induction rs generalizing st with
  | nil => intro r hr; simp at hr
  | cons r0 rest ih =>
    intro r hr
    rw [List.foldl_cons]
    rcases List.mem_cons.mp hr with hr | hr
    · subst hr
      exact foldClear_mono rest _ _ _
        (storedEntry_clear_self st r.componentId r.sourceId hwk)
    · exact ih _ (wellKeyed_clear st r0.componentId r0.sourceId hwk) r hr

lemma itemLt_le {a b : ItemRef} (h : itemLt a b = true) : itemLeP a b := by
  simp only [itemLt, decide_eq_true_eq] at h
  unfold itemLeP
  omega

lemma itemLt_false_le {a b : ItemRef} (h : itemLt a b = false) : itemLeP b a := by
  simp only [itemLt, decide_eq_false_iff_not, not_or, not_and, not_lt] at h
  unfold itemLeP
  omega

lemma itemLeP_trans {a b c : ItemRef} (h1 : itemLeP a b) (h2 : itemLeP b c) :
    itemLeP a c := by
  unfold itemLeP at h1 h2 ⊢
  omega

lemma stableInsert_perm (x : ItemRef) (l : List ItemRef) :
    (stableInsert x l).Perm (x :: l) := by
  induction l with
  | nil => exact List.Perm.refl _
  | cons y ys ih =>
    by_cases hlt : itemLt x y = true
    · simp only [stableInsert, hlt, if_true]
      exact List.Perm.refl _
    · simp only [stableInsert, hlt, Bool.false_eq_true, if_false]
      exact (ih.cons y).trans (List.Perm.swap x y ys)

lemma stableInsert_pairwise (x : ItemRef) (l : List ItemRef)
    (h : List.Pairwise itemLeP l) :
    List.Pairwise itemLeP (stableInsert x l) := by
  induction l with
  | nil => simp [stableInsert]
  | cons y ys ih =>
    rcases List.pairwise_cons.mp h with ⟨hy, hys⟩
    by_cases hlt : itemLt x y = true
    · simp only [stableInsert, hlt, if_true]
      refine List.pairwise_cons.mpr ⟨?_, h⟩
      intro z hz
      rcases List.mem_cons.mp hz with hz | hz
      · exact hz ▸ itemLt_le hlt
      · exact itemLeP_trans (itemLt_le hlt) (hy z hz)
    · rw [Bool.not_eq_true] at hlt
      simp only [stableInsert, hlt, Bool.false_eq_true, if_false]
      refine List.pairwise_cons.mpr ⟨?_, ih hys⟩
      intro z hz
      rcases List.mem_cons.mp ((stableInsert_perm x ys).mem_iff.mp hz) with hz | hz
      · exact hz ▸ itemLt_false_le hlt
      · exact hy z hz

lemma foldl_insert_pairwise (l : List ItemRef) (acc : List ItemRef)
    (h : List.Pairwise itemLeP acc) :
    List.Pairwise itemLeP (l.foldl (fun a x => stableInsert x a) acc) := by
  induction l generalizing acc with
  | nil => exact h
  | cons x rest ih =>
    rw [List.foldl_cons]
    exact ih _ (stableInsert_pairwise x acc h)

lemma foldl_insert_perm (l : List ItemRef) (acc : List ItemRef) :
    (l.foldl (fun a x => stableInsert x a) acc).Perm (acc ++ l) := by
  induction l generalizing acc with
  | nil => simp
  | cons x rest ih =>
    rw [List.foldl_cons]
    refine (ih (stableInsert x acc)).trans ?_
    refine (List.Perm.append_right rest ((stableInsert_perm x acc))).trans ?_
    exact List.perm_middle.symm

lemma sortItems_pairwise (l : List ItemRef) :
    List.Pairwise itemLeP (sortItems l) :=
  foldl_insert_pairwise l [] (List.Pairwise.nil)

lemma sortItems_perm (l : List ItemRef) : (sortItems l).Perm l := by
  have := foldl_insert_perm l []
  simpa [sortItems] using this

/-- C9 (counterexample): the claim says the sweep evicts under memory
pressure "until memory usage is under budget, leaving the most recently
accessed entry in place".  In a warehouse holding a single live entry whose
size (2 MiB) exceeds the whole 1 MB budget — an entry that is trivially the
most recently accessed one — the sweep evicts that entry. -/
theorem C9_counterexample :
    getCurrentMemoryBytes exWarehouseOverBudget
        > exWarehouseOverBudget.config.maxMemoryUsage * 1048576
    ∧ isExpired exItemBig 1000 = false
    ∧ storedEntry exWarehouseOverBudget "w" "s" = some exItemBig
    ∧ (∀ r ∈ collectItems exWarehouseOverBudget, r.lastAccessed ≤ exItemBig.lastAccessed)
    ∧ storedEntry (performCleanup exWarehouseOverBudget 1000) "w" "s" = none := by
  refine ⟨by decide, rfl, rfl, by decide, rfl⟩

/-- C9 (amended): each sweep removes every expired source entry and expired
merged cache (none survives); after the expiry phase every remaining widget
storage has live source data or a live merged cache (a widget emptied by
the eviction phase is deleted by a later sweep, not this one); eviction
runs only when estimated memory exceeds 80% of the configured budget
(`usage > 0.8 * maxMemoryUsage`) and then removes, in ascending composite
order (`accessCount`, then `lastAccessed` — the sort is a stable ascending
sort, here proved sorted and a permutation of the candidate table), the
first at most 10 entries — a fixed batch, not "until under budget", and
possibly including the most recently accessed entry. -/
theorem C9_theorem (st : WarehouseState) (now : Nat) :
    noExpiredEntries (performCleanup st now) now
    ∧ (∀ cid s, aget (cleanupPhase1 st now).componentStorage cid = some s →
        s.dataSources ≠ [] ∨ s.mergedData.isSome = true)
    ∧ (memoryPressure (cleanupPhase1 st now) = false →
        performCleanup st now = cleanupPhase1 st now)
    ∧ (wellKeyed (cleanupPhase1 st now) →
        memoryPressure (cleanupPhase1 st now) = true →
        ∀ r ∈ getLeastAccessedItems (cleanupPhase1 st now) 10,
          storedEntry (performCleanup st now) r.componentId r.sourceId = none)
    ∧ List.Pairwise itemLeP (sortItems (collectItems (cleanupPhase1 st now)))
    ∧ (sortItems (collectItems (cleanupPhase1 st now))).Perm
        (collectItems (cleanupPhase1 st now)) := by
  refine ⟨?_, phase1_valid st now, ?_, ?_, sortItems_pairwise _, sortItems_perm _⟩
  · by_cases hp : memoryPressure (cleanupPhase1 st now) = true
    · have hstep : performCleanup st now
          = (getLeastAccessedItems (cleanupPhase1 st now) 10).foldl
              (fun s r => clearDataSourceCache s r.componentId r.sourceId)
              (cleanupPhase1 st now) := by
        simp [performCleanup, hp]
      rw [hstep]
      exact foldClear_noExpired _ _ _ (phase1_noExpired st now)
    · have hstep : performCleanup st now = cleanupPhase1 st now := by
        simp [performCleanup, hp]
      rw [hstep]
      exact phase1_noExpired st now
  · intro hp
    simp [performCleanup, hp]
  · intro hwk hp
    have hstep : performCleanup st now
        = (getLeastAccessedItems (cleanupPhase1 st now) 10).foldl
            (fun s r => clearDataSourceCache s r.componentId r.sourceId)
            (cleanupPhase1 st now) := by
      simp [performCleanup, hp]
    rw [hstep]
    exact foldClear_removes _ _ hwk

/-- Witness for `C9_theorem`: on the over-budget single-entry warehouse the
eviction conjunct fires and removes the `("w","s")` entry. -/
theorem C9_theorem_witness :
    storedEntry (performCleanup exWarehouseOverBudget 1000) "w" "s" = none := by
  refine (C9_theorem exWarehouseOverBudget 1000).2.2.2.1
    (by unfold wellKeyed; exact ⟨by decide, by decide⟩) rfl
    { componentId := "w", sourceId := "s", accessCount := 3, lastAccessed := 500 } ?_
  rw [show getLeastAccessedItems (cleanupPhase1 exWarehouseOverBudget 1000) 10
      = [{ componentId := "w", sourceId := "s", accessCount := 3, lastAccessed := 500 }]
    from rfl]
  exact List.mem_singleton.mpr rfl
